import Mathlib

/-!
Shallow embedding of the `lucy-code` orchestrator core
(`src/lucy_orchestrator/`): the task data model (`models.py`), the state
machine (`state_machine.py`), the file-change policy (`policy.py`), the plan
validator (`plan.py`), the rule-based intent classifier (`intent.py`), the
task store's write discipline (`store.py`) and `Orchestrator.run_task`
(`orchestrator.py`).  Python mutation is modelled by explicit state passing;
`raise` is modelled by `Except` / an `Option` error component; wall-clock
timestamps (`utc_now_iso`) are outside the model, so events carry no
timestamp and `created_at` / `updated_at` are opaque strings.
-/

namespace Lucy

/-- Task lifecycle states, mirroring `TaskState` in `models.py`. -/
inductive TaskState where
  | NEW
  | CLARIFYING
  | WAIT_APPROVAL
  | RUNNING
  | TESTING
  | DONE
  | FAILED
  | CANCELLED
deriving DecidableEq, Repr

/-- String value of a state, as in the `str`-valued Python enum. -/
def TaskState.value : TaskState → String
  | .NEW => "NEW"
  | .CLARIFYING => "CLARIFYING"
  | .WAIT_APPROVAL => "WAIT_APPROVAL"
  | .RUNNING => "RUNNING"
  | .TESTING => "TESTING"
  | .DONE => "DONE"
  | .FAILED => "FAILED"
  | .CANCELLED => "CANCELLED"

/-- Mirrors `QuestionStatus` in `models.py`. -/
inductive QuestionStatus where
  | open_
  | answered
deriving DecidableEq, Repr

/-- Mirrors `StepType` in `models.py`. -/
inductive StepType where
  | code
  | test
deriving DecidableEq, Repr

/-- Mirrors `StepStatus` in `models.py`. -/
inductive StepStatus where
  | pending
  | running
  | completed
  | failed
deriving DecidableEq, Repr

/-- Mirrors `PlanQuestion` in `models.py`; `answer` may be absent (`None`). -/
structure PlanQuestion where
  id : String
  question : String
  required : Bool := true
  status : QuestionStatus := .open_
  answer : Option String := none
deriving DecidableEq, Repr

/-- Mirrors `PlanStep` in `models.py`; `command` may be `None`. -/
structure PlanStep where
  id : String
  step_type : StepType
  title : String
  command : Option String := none
  status : StepStatus := .pending
deriving DecidableEq, Repr

/-- Mirrors `PlanConstraints` in `models.py`.  `max_files_changed` is a
Python `int`, so it is modelled as `Int`. -/
structure PlanConstraints where
  allowed_paths : List String := []
  forbidden_paths : List String := []
  max_files_changed : Int := 20
deriving DecidableEq, Repr

/-- Mirrors `Plan` in `models.py`; `created_at` is an opaque string. -/
structure Plan where
  plan_id : String
  task_id : String
  version : Int
  goal : String
  assumptions : List String := []
  constraints : PlanConstraints := {}
  questions : List PlanQuestion := []
  steps : List PlanStep := []
  approval_gate_before_run : Bool := true
  approval_gate_before_commit : Bool := true
  created_at : String := ""
  created_by : String := "orchestrator"
deriving DecidableEq, Repr

/-- Mirrors `Plan.open_required_questions`. -/
def Plan.open_required_questions (plan : Plan) : List PlanQuestion :=
  plan.questions.filter (fun q => q.required && q.status == .open_)

/-- Mirrors `Approval` in `models.py`. -/
structure Approval where
  required : Bool := true
  approved_by : Option String := none
  approved_at : Option String := none
deriving DecidableEq, Repr

/-- Python truthiness of an optional string: `None` and `""` are falsy. -/
def strTruthy : Option String → Bool
  | none => false
  | some s => s ≠ ""

/-- Mirrors `Approval.is_approved`: `bool(approved_by and approved_at)` when
approval is required, else `True`. -/
def Approval.is_approved (a : Approval) : Bool :=
  if !a.required then true
  else strTruthy a.approved_by && strTruthy a.approved_at

/-- Mirrors `ExecutionInfo` in `models.py`. -/
structure ExecutionInfo where
  attempt : Int := 0
  max_attempts : Int := 3
  last_error : Option String := none
deriving DecidableEq, Repr

/-- One entry of a test-result list; mirrors the fields of
`TestExecutionResult.to_dict()` that the orchestrator consumes. -/
structure TestResult where
  command : String
  exit_code : Int
  log_path : String
  duration_ms : Int
deriving DecidableEq, Repr

/-- Mirrors `TaskArtifacts` in `models.py`. -/
structure TaskArtifacts where
  clarify_summary : Option String := none
  diff_path : Option String := none
  test_report_path : Option String := none
  pr_url : Option String := none
  changed_files : List String := []
  test_results : List TestResult := []
deriving DecidableEq, Repr

/-- Mirrors `TaskSource` in `models.py`. -/
structure TaskSource where
  type : String
  user_id : String
  chat_id : String
  message_id : String
deriving DecidableEq, Repr

/-- Mirrors `RepoContext` in `models.py`. -/
structure RepoContext where
  name : String
  base_branch : String := "main"
  worktree_path : Option String := none
  branch : Option String := none
deriving DecidableEq, Repr

/-- Event payloads (`dict[str, object]`) are modelled as association lists
with all values rendered to strings. -/
abbrev Payload := List (String × String)

/-- Mirrors `TaskEvent` in `models.py`, minus the wall-clock timestamp. -/
structure TaskEvent where
  event_type : String
  message : String
  payload : Payload := []
deriving DecidableEq, Repr

/-- Mirrors `Task` in `models.py`; `created_at` / `updated_at` are opaque. -/
structure Task where
  task_id : String
  title : String
  description : String
  source : TaskSource
  repo : RepoContext
  state : TaskState := .NEW
  approval : Approval := {}
  plan : Option Plan := none
  execution : ExecutionInfo := {}
  artifacts : TaskArtifacts := {}
  event_log : List TaskEvent := []
  created_at : String := ""
  updated_at : String := ""
deriving DecidableEq, Repr

/-- Mirrors `Task.record_event`: appends one event to the log (the
timestamp refresh of `updated_at` is outside the model). -/
def Task.record_event (task : Task) (event_type message : String)
    (payload : Payload := []) : Task :=
  { task with event_log := task.event_log ++ [⟨event_type, message, payload⟩] }

/-- Error taxonomy of `exceptions.py`, restricted to the kinds the embedded
operations raise.  `adapter` stands for any exception escaping the injected
OpenCode client (`OpenCodeInvocationError` or otherwise). -/
inductive OrchError where
  | invalidTransition (msg : String)
  | planValidation (msg : String)
  | policyViolation (msg : String)
  | orchestrator (msg : String)
  | adapter (msg : String)
deriving DecidableEq, Repr

/-- The Python `str(exc)` of an orchestrator exception is its message. -/
def OrchError.message : OrchError → String
  | .invalidTransition m => m
  | .planValidation m => m
  | .policyViolation m => m
  | .orchestrator m => m
  | .adapter m => m

/-! State machine (`state_machine.py`). -/

/-- Mirrors `_ALLOWED_TRANSITIONS`. -/
def allowedTransitions : TaskState → List TaskState
  | .NEW => [.CLARIFYING, .FAILED, .CANCELLED]
  | .CLARIFYING => [.WAIT_APPROVAL, .FAILED, .CANCELLED]
  | .WAIT_APPROVAL => [.RUNNING, .FAILED, .CANCELLED]
  | .RUNNING => [.TESTING, .FAILED, .CANCELLED]
  | .TESTING => [.DONE, .FAILED, .CANCELLED]
  | .FAILED => [.RUNNING, .CANCELLED]
  | .DONE => []
  | .CANCELLED => []

/-- Mirrors `assert_transition`: table lookup first, then the target-entry
preconditions for `RUNNING`, `TESTING` and `DONE`, raising
`InvalidTransitionError` on the first violation. -/
def assert_transition (task : Task) (target : TaskState) :
    Except OrchError Unit :=
  if target ∉ allowedTransitions task.state then
    .error (.invalidTransition
      ("Invalid transition: " ++ task.state.value ++ " -> " ++ target.value))
  else if target = .RUNNING ∧ task.approval.required ∧
      ¬ task.approval.is_approved then
    .error (.invalidTransition "Task approval is required before RUNNING")
  else if target = .RUNNING ∧ task.plan = none then
    .error (.invalidTransition "Task plan is required before RUNNING")
  else if target = .RUNNING ∧
      (task.plan.map Plan.open_required_questions).getD [] ≠ [] then
    .error (.invalidTransition
      ("Open required questions remain: " ++ String.intercalate ", "
        (((task.plan.map Plan.open_required_questions).getD []).map
          PlanQuestion.id)))
  else if target = .TESTING ∧ ¬ strTruthy task.artifacts.diff_path then
    .error (.invalidTransition "Diff artifact is required before TESTING")
  else if target = .DONE ∧ ¬ strTruthy task.artifacts.test_report_path then
    .error (.invalidTransition "Test report is required before DONE")
  else
    .ok ()

/-- Mirrors `dict.update`: pairs of `base` whose key reappears in `upd` are
overridden by `upd`. -/
def payloadUpdate (base upd : Payload) : Payload :=
  base.filter (fun kv => !((upd.map Prod.fst).contains kv.fst)) ++ upd

/-- Mirrors `transition`.  Python mutates `task` in place and raises on a bad
transition; here the pair returns the task (unchanged when the second
component carries an error) together with the raised error, if any. -/
def transition (task : Task) (target : TaskState)
    (event_type message : String) (payload : Payload := []) :
    Task × Option OrchError :=
  match assert_transition task target with
  | .error e => (task, some e)
  | .ok _ =>
    let previous := task.state
    let task' := { task with state := target }
    let event_payload :=
      payloadUpdate [("from", previous.value), ("to", target.value)] payload
    (task'.record_event event_type message event_payload, none)

/-! File-change policy (`policy.py`).  `fnmatch.fnmatch` is embedded as a
glob matcher over the whole string with `*` (any run of characters,
crossing `/`), `?` (any single character) and `[...]` character classes
with `!`-negation and ranges; a `[` without a closing `]` is literal, as in
`fnmatch.translate`. -/

/-- One token of a compiled glob pattern. -/
inductive GlobToken where
  | star
  | qmark
  | lit (c : Char)
  | cls (negate : Bool) (items : List Char)
deriving DecidableEq, Repr

/-- Splits a character class body at its closing `]`; `lead` holds a leading
literal `]` already consumed. -/
def splitClass (negate : Bool) (lead body : List Char) :
    Option (GlobToken × List Char) :=
  let j := body.findIdx (· = ']')
  if j < body.length then
    some (.cls negate (lead ++ body.take j), body.drop (j + 1))
  else
    none

/-- Compiles a glob pattern to tokens, following `fnmatch.translate`.  The
`fuel` argument only makes the recursion structural (hence kernel
computable); every step consumes at least one pattern character, so
`fuel = p.length` always suffices. -/
def tokenizeGlobAux : Nat → List Char → List GlobToken
  | 0, _ => []
  | _ + 1, [] => []
  | fuel + 1, '*' :: rest => .star :: tokenizeGlobAux fuel rest
  | fuel + 1, '?' :: rest => .qmark :: tokenizeGlobAux fuel rest
  | fuel + 1, '[' :: '!' :: ']' :: rest =>
    match splitClass true [']'] rest with
    | some (t, r) => t :: tokenizeGlobAux fuel r
    | none => .lit '[' :: tokenizeGlobAux fuel ('!' :: ']' :: rest)
  | fuel + 1, '[' :: '!' :: rest =>
    match splitClass true [] rest with
    | some (t, r) => t :: tokenizeGlobAux fuel r
    | none => .lit '[' :: tokenizeGlobAux fuel ('!' :: rest)
  | fuel + 1, '[' :: ']' :: rest =>
    match splitClass false [']'] rest with
    | some (t, r) => t :: tokenizeGlobAux fuel r
    | none => .lit '[' :: tokenizeGlobAux fuel (']' :: rest)
  | fuel + 1, '[' :: rest =>
    match splitClass false [] rest with
    | some (t, r) => t :: tokenizeGlobAux fuel r
    | none => .lit '[' :: tokenizeGlobAux fuel rest
  | fuel + 1, c :: rest => .lit c :: tokenizeGlobAux fuel rest

/-- Token list of a glob pattern. -/
def tokenizeGlob (p : List Char) : List GlobToken :=
  tokenizeGlobAux p.length p

/-- Membership in a character class, with `a-b` ranges as in regex classes
produced by `fnmatch.translate`. -/
def memClass : List Char → Char → Bool
  | [], _ => false
  | a :: '-' :: b :: rest, c => (a ≤ c ∧ c ≤ b) || memClass rest c
  | a :: rest, c => a == c || memClass rest c

/-- Matches compiled glob tokens against the whole string.  `fuel` again
only makes the recursion structural; every step shrinks
`ts.length + s.length`, so `ts.length + s.length + 1` suffices. -/
def globTokensMatchAux : Nat → List GlobToken → List Char → Bool
  | 0, _, _ => false
  | _ + 1, [], s => s.isEmpty
  | fuel + 1, .star :: ts, [] => globTokensMatchAux fuel ts []
  | fuel + 1, .star :: ts, c :: s =>
    globTokensMatchAux fuel ts (c :: s) ||
      globTokensMatchAux fuel (.star :: ts) s
  | _ + 1, .qmark :: _, [] => false
  | fuel + 1, .qmark :: ts, _ :: s => globTokensMatchAux fuel ts s
  | _ + 1, .lit _ :: _, [] => false
  | fuel + 1, .lit a :: ts, c :: s => a == c && globTokensMatchAux fuel ts s
  | _ + 1, .cls _ _ :: _, [] => false
  | fuel + 1, .cls negate items :: ts, c :: s =>
    (memClass items c != negate) && globTokensMatchAux fuel ts s

/-- Mirrors `fnmatch.fnmatch(name, pattern)` (POSIX case rules). -/
def fnmatch (name pattern : String) : Bool :=
  let ts := tokenizeGlob pattern.toList
  globTokensMatchAux (ts.length + name.toList.length + 1) ts name.toList

instance {ε α : Type} [DecidableEq ε] [DecidableEq α] :
    DecidableEq (Except ε α) := fun a b =>
  match a, b with
  | .ok x, .ok y =>
    if h : x = y then .isTrue (by rw [h]) else .isFalse (by simp [h])
  | .ok _, .error _ => .isFalse (by simp)
  | .error _, .ok _ => .isFalse (by simp)
  | .error x, .error y =>
    if h : x = y then .isTrue (by rw [h]) else .isFalse (by simp [h])

/-- Mirrors `_matches_any` in `policy.py`. -/
def matchesAny (path : String) (patterns : List String) : Bool :=
  patterns.any (fun pattern => fnmatch path pattern)

/-- Mirrors `file_path.replace("\\", "/")`. -/
def normalizeSlashes (path : String) : String :=
  String.mk (path.toList.map (fun c => if c = '\\' then '/' else c))

/-- The per-file loop of `enforce_file_policy`: for each path in order,
the forbidden check, then the allowed check. -/
def enforceFiles (constraints : PlanConstraints) :
    List String → Except OrchError Unit
  | [] => .ok ()
  | file_path :: rest =>
    let normalized := normalizeSlashes file_path
    if constraints.forbidden_paths ≠ [] ∧
        matchesAny normalized constraints.forbidden_paths then
      .error (.policyViolation ("File is forbidden by policy: " ++ normalized))
    else if constraints.allowed_paths ≠ [] ∧
        ¬ matchesAny normalized constraints.allowed_paths then
      .error (.policyViolation ("File is outside allowed paths: " ++
        normalized))
    else
      enforceFiles constraints rest

/-- Mirrors `enforce_file_policy`: the count ceiling first, then the
per-path checks in order. -/
def enforce_file_policy (changed_files : List String)
    (constraints : PlanConstraints) : Except OrchError Unit :=
  if (changed_files.length : Int) > constraints.max_files_changed then
    .error (.policyViolation
      ("Changed files exceeded max_files_changed: " ++
        toString changed_files.length ++ " > " ++
        toString constraints.max_files_changed))
  else
    enforceFiles constraints changed_files

/-! Plan validator (`plan.py`). -/

/-- The six whitespace characters of Python `str.strip()` / `\s` (ASCII). -/
def isPySpace (c : Char) : Bool :=
  c = ' ' ∨ c = '\t' ∨ c = '\n' ∨ c = '\r' ∨ c = '\x0b' ∨ c = '\x0c'

/-- Mirrors Python `str.strip()` (ASCII whitespace). -/
def pyStrip (s : String) : String :=
  String.mk (((s.toList.dropWhile isPySpace).reverse.dropWhile
    isPySpace).reverse)

/-- Python truthiness of `step.command and step.command.strip()`. -/
def commandNonBlank : Option String → Bool
  | none => false
  | some s => pyStrip s ≠ ""

/-- The per-step loop of `validate_plan`: returns the errors it appends and
the list of encountered step types (Python collects the latter in a set;
only membership is consumed).  `seen` carries the step ids seen so far. -/
def validateSteps (seen : List String) :
    List PlanStep → List String × List StepType
  | [] => ([], [])
  | step :: rest =>
    let idErrs : List String :=
      if step.id = "" then ["every step must have an id"]
      else if step.id ∈ seen then ["duplicate step id: " ++ step.id]
      else []
    let seen' :=
      if step.id = "" ∨ step.id ∈ seen then seen else seen ++ [step.id]
    let cmdErrs : List String :=
      if step.step_type = .test ∧ ¬ commandNonBlank step.command then
        ["test step '" ++ step.id ++ "' requires command"]
      else []
    let rec_ := validateSteps seen' rest
    (idErrs ++ cmdErrs ++ rec_.1, step.step_type :: rec_.2)

/-- Mirrors `validate_plan` in `plan.py`, including the early return when
the plan has no steps. -/
def validate_plan (plan : Plan) : List String :=
  let headErrs :=
    (if plan.plan_id = "" then ["plan_id is required"] else []) ++
    (if plan.task_id = "" then ["task_id is required"] else []) ++
    (if pyStrip plan.goal = "" then ["goal is required"] else []) ++
    (if plan.constraints.allowed_paths = [] then
      ["constraints.allowed_paths must not be empty"] else []) ++
    (if plan.constraints.max_files_changed ≤ 0 then
      ["constraints.max_files_changed must be > 0"] else [])
  if plan.steps = [] then
    headErrs ++ ["at least one plan step is required"]
  else
    let stepRes := validateSteps [] plan.steps
    headErrs ++ stepRes.1 ++
    (if StepType.code ∉ stepRes.2 then
      ["plan requires at least one code step"] else []) ++
    (if StepType.test ∉ stepRes.2 then
      ["plan requires at least one test step"] else [])

/-- Mirrors `assert_plan_valid`. -/
def assert_plan_valid (plan : Plan) : Except OrchError Unit :=
  let errors := validate_plan plan
  if errors ≠ [] then
    .error (.planValidation (String.intercalate "; " errors))
  else
    .ok ()

/-! Rule-based intent classifier (`intent.py`).  `re.search` is abstracted
as an injected `search : pattern → text → Bool` oracle; the three pattern
lists are the literal regex sources from the Python class. -/

/-- Mirrors `ApprovalIntent` in `intent.py`. -/
inductive ApprovalIntent where
  | approve
  | reject
  | clarify
  | unknown
deriving DecidableEq, Repr

/-- Mirrors `IntentResult` (the optional `raw` payload, used only by the
model-based classifier, is omitted). -/
structure IntentResult where
  intent : ApprovalIntent
  confidence : ℚ
  reason : String := ""
deriving DecidableEq, Repr

/-- Mirrors `RuleBasedIntentClassifier._approve_patterns`. -/
def approvePatterns : List String :=
  ["^/approve$", "\\bapprove(d)?\\b", "\\bgo\\s+ahead\\b", "\\bship\\s+it\\b",
   "\\bok\\b", "\\bokay\\b", "\\blgtm\\b", "同意", "通过", "可以开始",
   "开始吧", "开干", "没问题"]

/-- Mirrors `RuleBasedIntentClassifier._reject_patterns`. -/
def rejectPatterns : List String :=
  ["^/reject$", "\\breject\\b", "\\bdecline\\b", "\\bcancel\\b", "\\bhold\\b",
   "\\bnot\\s+now\\b", "不同意", "拒绝", "先别", "不要", "取消", "停止",
   "停下"]

/-- Mirrors `RuleBasedIntentClassifier._clarify_patterns`. -/
def clarifyPatterns : List String :=
  ["\\?", "为什么", "能不能", "是否", "请解释", "再确认"]

/-- ASCII lowercase of a string (Python `str.lower()` on the texts in
scope). -/
def strLower (s : String) : String :=
  String.mk (s.toList.map Char.toLower)

/-- Collapses each maximal whitespace run to a single space, as
`re.sub(r"\s+", " ", ...)` does; the flag records whether the previous
character belonged to a run. -/
def collapseSpacesAux : Bool → List Char → List Char
  | _, [] => []
  | prevSpace, c :: rest =>
    if isPySpace c then
      if prevSpace then collapseSpacesAux true rest
      else ' ' :: collapseSpacesAux true rest
    else c :: collapseSpacesAux false rest

/-- Mirrors `RuleBasedIntentClassifier._normalize`:
`re.sub(r"\s+", " ", text.strip().lower())`. -/
def normalizeText (text : String) : String :=
  String.mk (collapseSpacesAux false ((strLower (pyStrip text)).toList))

/-- Mirrors `RuleBasedIntentClassifier._match_any` over the injected
`search` oracle. -/
def matchAnyPattern (search : String → String → Bool)
    (patterns : List String) (text : String) : Bool :=
  patterns.any (fun pattern => search pattern text)

/-- Mirrors `RuleBasedIntentClassifier.classify`: normalize, then the empty
guard, then reject / approve / clarify in that order. -/
def RuleBasedIntentClassifier.classify (search : String → String → Bool)
    (text : String) : IntentResult :=
  let normalized := normalizeText text
  if normalized = "" then
    { intent := .unknown, confidence := 0, reason := "empty message" }
  else if matchAnyPattern search rejectPatterns normalized then
    { intent := .reject, confidence := 0.95, reason := "matched reject rule" }
  else if matchAnyPattern search approvePatterns normalized then
    { intent := .approve, confidence := 0.95,
      reason := "matched approve rule" }
  else if matchAnyPattern search clarifyPatterns normalized then
    { intent := .clarify, confidence := 0.6, reason := "matched clarify rule" }
  else
    { intent := .unknown, confidence := 0.2, reason := "no rule matched" }

/-! Task store write discipline (`store.py`).  `TaskStore.save` is
`path.open("w")` followed by `json.dump(...)`: opening with mode `"w"`
truncates the file in place, then the serialized record is streamed into
it.  The model lists the on-disk contents observable at the successive
steps of one `save` call. -/

/-- On-disk contents of `{root}/{task_id}.json` during `TaskStore.save`:
before the call, after the `open("w")` truncation, after `json.dump`. -/
def save_visited_contents (previous newRecord : String) : List String :=
  [previous, "", newRecord]

/-- Atomic replacement as the spec demands it: at every moment the file
holds either the complete previous record or the complete new record. -/
def atomicReplace (visited : List String) (previous newRecord : String) :
    Prop :=
  ∀ s ∈ visited, s = previous ∨ s = newRecord

/-! `Orchestrator.run_task` (`orchestrator.py`).  The injected OpenCode
client is abstracted as `build` and `run_test` oracles which either return
a result or raise; writing the report file is abstracted to computing its
path (`report_dir / f"{task_id}_test_report.json"`). -/

/-- The fields of `BuildExecutionResult` consumed by `run_task`. -/
structure BuildResult where
  changed_files : List String
  diff_path : String
deriving DecidableEq, Repr

/-- Outcome of one `run_task` call: `rejected` means it raised at the
max-attempts guard before touching the task (nothing persisted); `raised`
means an exception was re-raised after persisting the task; `returned` is
a normal return of the persisted task. -/
inductive RunOutcome where
  | rejected (err : OrchError)
  | raised (persisted : Task) (err : OrchError)
  | returned (persisted : Task)
deriving DecidableEq, Repr

/-- The test-step loop of `run_task`: `step.command or ""` is executed for
each test step in order, halting after the first non-zero exit code; the
Bool is `all_passed`. -/
def runTestSteps (run_test : Task → String → Except OrchError TestResult)
    (task : Task) : List PlanStep → Except OrchError (List TestResult × Bool)
  | [] => .ok ([], true)
  | step :: rest =>
    match run_test task (step.command.getD "") with
    | .error e => .error e
    | .ok result =>
      if result.exit_code ≠ 0 then .ok ([result], false)
      else
        match runTestSteps run_test task rest with
        | .error e => .error e
        | .ok (results, all_passed) => .ok (result :: results, all_passed)

/-- The `try` block of `run_task`.  An error carries the task as mutated up
to the raise, which the handler then persists. -/
def runBody (build : Task → Except OrchError BuildResult)
    (run_test : Task → String → Except OrchError TestResult)
    (report_dir : String) (task : Task) : Except (Task × OrchError) Task :=
  match transition task .RUNNING "state.change" "Entering RUNNING" with
  | (t, some e) => .error (t, e)
  | (t, none) =>
  match t.plan with
  | none => .error (t, .orchestrator "Task plan is missing")
  | some plan =>
  match assert_plan_valid plan with
  | .error e => .error (t, e)
  | .ok _ =>
  match build t with
  | .error e => .error (t, e)
  | .ok build_result =>
  let t := { t with artifacts := { t.artifacts with
    diff_path := some build_result.diff_path,
    changed_files := build_result.changed_files } }
  match enforce_file_policy t.artifacts.changed_files plan.constraints with
  | .error e => .error (t, e)
  | .ok _ =>
  let t := t.record_event "build.completed" "Build step completed"
    [("diff_path", build_result.diff_path),
     ("changed_files", toString t.artifacts.changed_files.length)]
  match transition t .TESTING "state.change" "Entering TESTING" with
  | (t, some e) => .error (t, e)
  | (t, none) =>
  let test_steps := plan.steps.filter (fun step => step.step_type == .test)
  match runTestSteps run_test t test_steps with
  | .error e => .error (t, e)
  | .ok (test_results, all_passed) =>
  let report_path := report_dir ++ "/" ++ t.task_id ++ "_test_report.json"
  let t := { t with artifacts := { t.artifacts with
    test_results := test_results,
    test_report_path := some report_path } }
  if all_passed then
    let t := { t with execution := { t.execution with last_error := none } }
    match transition t .DONE "state.change" "Task completed" with
    | (t, some e) => .error (t, e)
    | (t, none) => .ok t
  else
    let t := { t with execution := { t.execution with
      last_error := some "One or more tests failed" } }
    match transition t .FAILED "state.change" "Task failed in tests" with
    | (t, some e) => .error (t, e)
    | (t, none) => .ok t

/-- Mirrors `Orchestrator.run_task`: the max-attempts guard, the attempt
increment, the `run.started` event, the `try` body and the unified
exception handler that forces `FAILED`, records `run.failed`, persists and
re-raises. -/
def run_task (build : Task → Except OrchError BuildResult)
    (run_test : Task → String → Except OrchError TestResult)
    (report_dir : String) (task : Task) : RunOutcome :=
  if task.state = .FAILED ∧
      task.execution.attempt ≥ task.execution.max_attempts then
    .rejected (.orchestrator ("Task exceeded max attempts: " ++
      toString task.execution.attempt ++ "/" ++
      toString task.execution.max_attempts))
  else
    let task := { task with execution := { task.execution with
      attempt := task.execution.attempt + 1 } }
    let task := task.record_event "run.started" "Task run started"
      [("attempt", toString task.execution.attempt)]
    match runBody build run_test report_dir task with
    | .ok task' => .returned task'
    | .error (t, exc) =>
      let t := { t with execution := { t.execution with
        last_error := some exc.message } }
      let t :=
        if t.state ∉ [TaskState.FAILED, .DONE, .CANCELLED] then
          match transition t .FAILED "state.change" "Task failed" with
          | (t2, none) => t2
          | (t2, some _) => { t2 with state := .FAILED }
        else t
      let t := t.record_event "run.failed" "Task run failed"
        [("error", exc.message)]
      .raised t exc

/-! Plan normalization in the OpenCode adapter
(`adapters/opencode.py`, `OpenCodeCLIClient._plan_from_payload` /
`_normalize_steps` / `_normalize_questions`).  The JSON payload returned by
the agent is modelled with `Option` fields for absent keys; values that the
Python code immediately passes through `str(...)` are assumed to be
strings, except for a step's `command`, whose `isinstance(command, str)`
test is modelled by `JVal`.  A `none` item in a payload list stands for a
non-`dict` entry, which the loops skip while still advancing `idx`. -/

/-- A JSON value of which only string-ness matters. -/
inductive JVal where
  | str (s : String)
  | other
deriving DecidableEq, Repr

/-- One `dict` item of the payload's `steps` list. -/
structure StepPayload where
  id : Option String := none
  type : Option String := none
  title : Option String := none
  command : Option JVal := none
  status : Option String := none
deriving DecidableEq, Repr

/-- One `dict` item of the payload's `questions` list. -/
structure QuestionPayload where
  id : Option String := none
  question : Option String := none
  required : Option Bool := none
  status : Option String := none
  answer : Option String := none
deriving DecidableEq, Repr

/-- The payload's `constraints` dict. -/
structure ConstraintsPayload where
  allowed_paths : Option (List String) := none
  forbidden_paths : Option (List String) := none
  max_files_changed : Option Int := none
deriving DecidableEq, Repr

/-- The agent plan payload; `approval_gate` and `metadata` sub-dicts are
flattened into the four trailing fields. -/
structure PlanPayload where
  plan_id : Option String := none
  task_id : Option String := none
  version : Option Int := none
  goal : Option String := none
  assumptions : List String := []
  constraints : Option ConstraintsPayload := none
  questions : Option (List (Option QuestionPayload)) := none
  steps : Option (List (Option StepPayload)) := none
  required_before_run : Option Bool := none
  required_before_commit : Option Bool := none
  created_at : Option String := none
  created_by : Option String := none
deriving DecidableEq, Repr

/-- Python `x.get(key) or default`: absent and `""` both fall back. -/
def pyOrStr (v : Option String) (default : String) : String :=
  match v with
  | some s => if s = "" then default else s
  | none => default

/-- Python `x.get(key) or default` for lists: absent and `[]` fall back. -/
def pyOrList (v : Option (List String)) (default : List String) :
    List String :=
  match v with
  | some l => if l = [] then default else l
  | none => default

/-- Python `isinstance(command, str) and command.strip()` truthiness. -/
def jvalNonBlankStr : Option JVal → Bool
  | some (.str s) => pyStrip s ≠ ""
  | _ => false

/-- The `status_raw in {...} else "pending"` normalization. -/
def parseStatus (s : String) : StepStatus :=
  if s = "pending" then .pending
  else if s = "running" then .running
  else if s = "completed" then .completed
  else if s = "failed" then .failed
  else .pending

/-- The loop body of `_normalize_steps`: emitted steps plus the `has_code`
and `has_test` flags; `idx` mirrors `enumerate(payload, start=1)`. -/
def normalizeStepsAux (idx : Nat) :
    List (Option StepPayload) → List PlanStep × Bool × Bool
  | [] => ([], false, false)
  | none :: rest => normalizeStepsAux (idx + 1) rest
  | some item :: rest =>
    let step_type_raw := strLower (item.type.getD "code")
    let step_type := if step_type_raw = "test" then StepType.test
      else StepType.code
    let status := parseStatus (strLower (item.status.getD "pending"))
    let command : Option JVal :=
      if step_type = .test ∧ ¬ jvalNonBlankStr item.command then
        some (.str "pytest -q")
      else item.command
    let normalized : PlanStep :=
      { id := pyOrStr item.id ("s" ++ toString idx)
        step_type := step_type
        title := pyOrStr item.title ("Step " ++ toString idx)
        command := match command with | some (.str s) => some s | _ => none
        status := status }
    let rest_ := normalizeStepsAux (idx + 1) rest
    (normalized :: rest_.1,
     (step_type == .code) || rest_.2.1,
     (step_type == .test) || rest_.2.2)

/-- The default code step `_normalize_steps` prepends. -/
def defaultCodeStep : PlanStep :=
  { id := "s_code", step_type := .code,
    title := "Implement required changes", command := none,
    status := .pending }

/-- The default test step `_normalize_steps` appends. -/
def defaultTestStep : PlanStep :=
  { id := "s_test", step_type := .test, title := "Run tests",
    command := some "pytest -q", status := .pending }

/-- Mirrors `_normalize_steps`: a non-list payload yields `[]`; otherwise
the loop runs, then a default code step is prepended and a default test
step appended when the (non-empty) output lacks that kind. -/
def normalize_steps (payload : Option (List (Option StepPayload))) :
    List PlanStep :=
  match payload with
  | none => []
  | some items =>
    let res := normalizeStepsAux 1 items
    let output := res.1
    let output := if output ≠ [] ∧ ¬ res.2.1 = true then
        defaultCodeStep :: output
      else output
    let output := if output ≠ [] ∧ ¬ res.2.2 = true then
        output ++ [defaultTestStep]
      else output
    output

/-- Mirrors `_normalize_questions`. -/
def normalizeQuestionsAux (idx : Nat) :
    List (Option QuestionPayload) → List PlanQuestion
  | [] => []
  | none :: rest => normalizeQuestionsAux (idx + 1) rest
  | some item :: rest =>
    { id := pyOrStr item.id ("q" ++ toString idx)
      question := item.question.getD ""
      required := item.required.getD true
      status := if strLower (item.status.getD "open") = "answered" then
          QuestionStatus.answered
        else QuestionStatus.open_
      answer := item.answer } :: normalizeQuestionsAux (idx + 1) rest

/-- Mirrors `_normalize_questions` at the top level. -/
def normalize_questions (payload : Option (List (Option QuestionPayload))) :
    List PlanQuestion :=
  match payload with
  | none => []
  | some items => normalizeQuestionsAux 1 items

/-- The two default steps used when normalization leaves no steps at all. -/
def fallbackSteps : List PlanStep :=
  [{ id := "s1", step_type := .code, title := "Implement required changes",
     command := none, status := .pending },
   { id := "s2", step_type := .test, title := "Run tests",
     command := some "pytest -q", status := .pending }]

/-- Mirrors `_plan_from_payload` (composed with the `Plan.from_dict` that
the Python code feeds its dict into; `metadata.created_at`'s
`utc_now_iso()` fallback is the opaque string `""`). -/
def plan_from_payload (payload : PlanPayload) (task : Task) : Plan :=
  let cp := payload.constraints.getD {}
  let allowed_paths :=
    pyOrList cp.allowed_paths ["src/**", "tests/**", "README.md"]
  let forbidden_paths :=
    pyOrList cp.forbidden_paths [".git/**", "secrets/**"]
  let max_files_changed := cp.max_files_changed.getD 20
  let normalized_steps := normalize_steps payload.steps
  let normalized_steps :=
    if normalized_steps = [] then fallbackSteps else normalized_steps
  { plan_id := pyOrStr payload.plan_id ("plan_" ++ task.task_id ++ "_v1")
    task_id := pyOrStr payload.task_id task.task_id
    version := payload.version.getD 1
    goal := pyOrStr payload.goal
      (if task.description ≠ "" then task.description else task.title)
    assumptions := payload.assumptions
    constraints :=
      { allowed_paths := allowed_paths
        forbidden_paths := forbidden_paths
        max_files_changed := max_files_changed }
    questions := normalize_questions payload.questions
    steps := normalized_steps
    approval_gate_before_run := payload.required_before_run.getD true
    approval_gate_before_commit := payload.required_before_commit.getD true
    created_at := payload.created_at.getD ""
    created_by := pyOrStr payload.created_by "opencode-plan-agent" }

/-! Sample fixtures used by concrete witnesses and counterexamples. -/

/-- A sample message source. -/
def sampleSource : TaskSource :=
  { type := "feishu", user_id := "u1", chat_id := "c1", message_id := "m1" }

/-- A sample repository context. -/
def sampleRepo : RepoContext := { name := "demo" }

/-- A freshly created sample task. -/
def sampleTask : Task :=
  { task_id := "task_1", title := "Implement retry",
    description := "Implement retry", source := sampleSource,
    repo := sampleRepo }

/-! Claim theorems. -/

/-- C1: `transition` succeeds only when the fixed table
(`NEW → {CLARIFYING, FAILED, CANCELLED}`, …, `DONE → {}`,
`CANCELLED → {}`) permits `task.state → target`, and for any pair outside
the table it raises `InvalidTransition` and returns the task with every
field unchanged. -/
theorem C1_transition_table (task : Task) (target : TaskState)
    (event_type message : String) (payload : Payload) :
    (allowedTransitions .NEW = [.CLARIFYING, .FAILED, .CANCELLED] ∧
     allowedTransitions .CLARIFYING = [.WAIT_APPROVAL, .FAILED, .CANCELLED] ∧
     allowedTransitions .WAIT_APPROVAL = [.RUNNING, .FAILED, .CANCELLED] ∧
     allowedTransitions .RUNNING = [.TESTING, .FAILED, .CANCELLED] ∧
     allowedTransitions .TESTING = [.DONE, .FAILED, .CANCELLED] ∧
     allowedTransitions .FAILED = [.RUNNING, .CANCELLED] ∧
     allowedTransitions .DONE = [] ∧
     allowedTransitions .CANCELLED = []) ∧
    ((transition task target event_type message payload).2 = none →
      target ∈ allowedTransitions task.state) ∧
    (target ∉ allowedTransitions task.state →
      transition task target event_type message payload =
        (task, some (.invalidTransition ("Invalid transition: " ++
          task.state.value ++ " -> " ++ target.value)))) := by
  refine ⟨by decide, ?_, ?_⟩
  · intro h
    by_contra hmem
    simp [transition, assert_transition, hmem] at h
  · intro hmem
    simp [transition, assert_transition, hmem]

/-- C1 witness: from the terminal state `DONE` no transition to `RUNNING`
is permitted; `transition` reports it and leaves the task unchanged. -/
theorem C1_transition_table_witness :
    TaskState.RUNNING ∉ allowedTransitions TaskState.DONE ∧
    transition { sampleTask with state := .DONE } .RUNNING "state.change"
        "Entering RUNNING" [] =
      ({ sampleTask with state := .DONE },
       some (.invalidTransition "Invalid transition: DONE -> RUNNING")) := by
  refine ⟨by decide, ?_⟩
  have h := (C1_transition_table { sampleTask with state := .DONE } .RUNNING
    "state.change" "Entering RUNNING" []).2.2 (by decide)
  simpa using h

/-- Unfolding of `Approval.is_approved` into the spec's phrasing. -/
theorem is_approved_iff (a : Approval) :
    a.is_approved = true ↔
      (a.required = true →
        strTruthy a.approved_by = true ∧ strTruthy a.approved_at = true) := by
  unfold Approval.is_approved
  by_cases hr : a.required <;> simp [hr]

/-- Success characterization of `assert_transition`. -/
theorem assert_transition_ok_iff (task : Task) (target : TaskState) :
    assert_transition task target = .ok () ↔
      (target ∈ allowedTransitions task.state ∧
       (target = .RUNNING →
         task.approval.is_approved = true ∧ task.plan ≠ none ∧
         (task.plan.map Plan.open_required_questions).getD [] = []) ∧
       (target = .TESTING → strTruthy task.artifacts.diff_path = true) ∧
       (target = .DONE → strTruthy task.artifacts.test_report_path = true)) := by
  unfold assert_transition
  by_cases h1 : target ∉ allowedTransitions task.state
  · rw [if_pos h1]
    exact ⟨fun h => absurd h (by simp), fun h => absurd h.1 h1⟩
  rw [if_neg h1]
  by_cases h2 : target = .RUNNING ∧ task.approval.required = true ∧
      ¬ task.approval.is_approved = true
  · rw [if_pos h2]
    exact ⟨fun h => absurd h (by simp),
      fun h => absurd (h.2.1 h2.1).1 h2.2.2⟩
  rw [if_neg h2]
  by_cases h3 : target = .RUNNING ∧ task.plan = none
  · rw [if_pos h3]
    exact ⟨fun h => absurd h (by simp),
      fun h => absurd h3.2 (h.2.1 h3.1).2.1⟩
  rw [if_neg h3]
  by_cases h4 : target = .RUNNING ∧
      (task.plan.map Plan.open_required_questions).getD [] ≠ []
  · rw [if_pos h4]
    exact ⟨fun h => absurd h (by simp),
      fun h => absurd (h.2.1 h4.1).2.2 h4.2⟩
  rw [if_neg h4]
  by_cases h5 : target = .TESTING ∧
      ¬ strTruthy task.artifacts.diff_path = true
  · rw [if_pos h5]
    exact ⟨fun h => absurd h (by simp),
      fun h => absurd (h.2.2.1 h5.1) h5.2⟩
  rw [if_neg h5]
  by_cases h6 : target = .DONE ∧
      ¬ strTruthy task.artifacts.test_report_path = true
  · rw [if_pos h6]
    exact ⟨fun h => absurd h (by simp),
      fun h => absurd (h.2.2.2 h6.1) h6.2⟩
  rw [if_neg h6]
  refine ⟨fun _ => ⟨not_not.mp h1, ?_, ?_, ?_⟩, fun _ => rfl⟩
  · intro ht
    refine ⟨?_, fun hplan => h3 ⟨ht, hplan⟩,
      Classical.byContradiction fun hq => h4 ⟨ht, hq⟩⟩
    by_cases hreq : task.approval.required = true
    · exact Classical.byContradiction fun hap => h2 ⟨ht, hreq, hap⟩
    · simp [Approval.is_approved]
      exact Or.inl (Bool.eq_false_iff.mpr hreq)
  · exact fun ht => Classical.byContradiction fun hd => h5 ⟨ht, hd⟩
  · exact fun ht => Classical.byContradiction fun hr => h6 ⟨ht, hr⟩

/-- Every error `assert_transition` raises is an `InvalidTransition`. -/
theorem assert_transition_error_shape {task : Task} {target : TaskState}
    {e : OrchError} (h : assert_transition task target = .error e) :
    ∃ msg, e = .invalidTransition msg := by
  unfold assert_transition at h
  split_ifs at h
  all_goals first
    | exact ⟨_, (Except.error.inj h).symm⟩
    | exact absurd h (by simp)

/-- Looking up `"from"` in a `transition` event payload when the caller's
extra payload does not override it. -/
theorem lookup_update_from (p tv : String) (payload : Payload)
    (hcf : (payload.map Prod.fst).contains "from" = false) :
    List.lookup "from" (payloadUpdate [("from", p), ("to", tv)] payload) =
      some p := by
  have hf : "from" ∉ payload.map Prod.fst := by simpa using hcf
  simp [payloadUpdate, List.lookup, hf]

/-- Looking up `"to"` in a `transition` event payload when the caller's
extra payload does not override it. -/
theorem lookup_update_to (p tv : String) (payload : Payload)
    (hcf : (payload.map Prod.fst).contains "from" = false)
    (hct : (payload.map Prod.fst).contains "to" = false) :
    List.lookup "to" (payloadUpdate [("from", p), ("to", tv)] payload) =
      some tv := by
  have hf : "from" ∉ payload.map Prod.fst := by simpa using hcf
  have ht : "to" ∉ payload.map Prod.fst := by simpa using hct
  simp [payloadUpdate, List.lookup, hf, ht]

/-- C2: entry preconditions of `transition`.  A transition into `RUNNING`
succeeds only if approval is satisfied (`required` implies `approved_by`
and `approved_at` both set), the plan is non-null and no required question
is open; into `TESTING` only if `artifacts.diff_path` is set; into `DONE`
only if `artifacts.test_report_path` is set.  A table-permitted transition
violating one of these raises `InvalidTransition`, and every successful
transition appends exactly one `state.change` event whose payload carries
the `from` and `to` state values. -/
theorem C2_entry_preconditions (task : Task) (target : TaskState)
    (message : String) (payload : Payload) (t' : Task)
    (hcf : (payload.map Prod.fst).contains "from" = false)
    (hct : (payload.map Prod.fst).contains "to" = false) :
    (transition task target "state.change" message payload = (t', none) →
      (target = .RUNNING →
        (task.approval.required = true →
          strTruthy task.approval.approved_by = true ∧
          strTruthy task.approval.approved_at = true) ∧
        task.plan ≠ none ∧
        (task.plan.map Plan.open_required_questions).getD [] = []) ∧
      (target = .TESTING → strTruthy task.artifacts.diff_path = true) ∧
      (target = .DONE → strTruthy task.artifacts.test_report_path = true) ∧
      ∃ ev, t'.event_log = task.event_log ++ [ev] ∧
        ev.event_type = "state.change" ∧
        List.lookup "from" ev.payload = some task.state.value ∧
        List.lookup "to" ev.payload = some target.value) ∧
    (target ∈ allowedTransitions task.state →
      ¬ ((target = .RUNNING →
            task.approval.is_approved = true ∧ task.plan ≠ none ∧
            (task.plan.map Plan.open_required_questions).getD [] = []) ∧
         (target = .TESTING → strTruthy task.artifacts.diff_path = true) ∧
         (target = .DONE →
            strTruthy task.artifacts.test_report_path = true)) →
      ∃ msg, (transition task target "state.change" message payload).2 =
        some (.invalidTransition msg)) := by
  constructor
  · intro h
    have hok : assert_transition task target = .ok () := by
      unfold transition at h
      cases hassert : assert_transition task target with
      | error e => rw [hassert] at h; simp at h
      | ok u => rfl
    have hiff := (assert_transition_ok_iff task target).1 hok
    have ht' : t' =
        ({ task with state := target } : Task).record_event "state.change"
          message (payloadUpdate [("from", task.state.value),
            ("to", target.value)] payload) := by
      unfold transition at h
      rw [hok] at h
      simpa using (congrArg Prod.fst h).symm
    refine ⟨?_, hiff.2.2.1, hiff.2.2.2, ?_⟩
    · intro hrun
      obtain ⟨hap, hplan, hq⟩ := hiff.2.1 hrun
      exact ⟨(is_approved_iff task.approval).1 hap, hplan, hq⟩
    · refine ⟨⟨"state.change", message,
        payloadUpdate [("from", task.state.value), ("to", target.value)]
          payload⟩, ?_, rfl, ?_, ?_⟩
      · rw [ht']
        simp [Task.record_event]
      · exact lookup_update_from _ _ _ hcf
      · exact lookup_update_to _ _ _ hcf hct
  · intro hmem hviol
    cases hassert : assert_transition task target with
    | error e =>
      obtain ⟨msg, rfl⟩ := assert_transition_error_shape hassert
      refine ⟨msg, ?_⟩
      unfold transition
      rw [hassert]
    | ok u =>
      exfalso
      cases u
      exact hviol ((assert_transition_ok_iff task target).1 hassert).2

/-- C2 witness: a fully approved `WAIT_APPROVAL` task with a plan carrying
no open required question transitions into `RUNNING`, appending one
`state.change` event with the `from` and `to` values. -/
theorem C2_entry_preconditions_witness :
    ((([] : Payload).map Prod.fst).contains "from" = false) ∧
    ∃ t' : Task,
      transition
        { sampleTask with
          state := .WAIT_APPROVAL,
          approval := { required := true, approved_by := some "u1",
                        approved_at := some "2024-01-01T00:00:00Z" },
          plan := some { plan_id := "p1", task_id := "task_1", version := 1,
                         goal := "goal" } }
        .RUNNING "state.change" "Entering RUNNING" [] = (t', none) ∧
      ∃ ev, t'.event_log =
          ({ sampleTask with
             state := .WAIT_APPROVAL,
             approval := { required := true, approved_by := some "u1",
                           approved_at := some "2024-01-01T00:00:00Z" },
             plan := some { plan_id := "p1", task_id := "task_1",
                            version := 1, goal := "goal" } } : Task).event_log
            ++ [ev] ∧
        List.lookup "from" ev.payload = some "WAIT_APPROVAL" ∧
        List.lookup "to" ev.payload = some "RUNNING" := by
  refine ⟨by decide, ?_⟩
  refine ⟨_, rfl, ?_⟩
  have h := (C2_entry_preconditions
    { sampleTask with
      state := .WAIT_APPROVAL,
      approval := { required := true, approved_by := some "u1",
                    approved_at := some "2024-01-01T00:00:00Z" },
      plan := some { plan_id := "p1", task_id := "task_1", version := 1,
                     goal := "goal" } }
    .RUNNING "Entering RUNNING" [] _ (by decide) (by decide)).1 rfl
  obtain ⟨-, -, -, ev, hlog, -, hf, ht⟩ := h
  exact ⟨ev, hlog, by simpa using hf, by simpa using ht⟩

/-- `matchesAny` against an empty pattern list never matches. -/
theorem matchesAny_nil (path : String) : matchesAny path [] = false := rfl

/-- Success characterization of the per-file loop of
`enforce_file_policy`. -/
theorem enforceFiles_ok_iff (constraints : PlanConstraints)
    (files : List String) :
    enforceFiles constraints files = .ok () ↔
      ∀ f ∈ files,
        matchesAny (normalizeSlashes f) constraints.forbidden_paths = false ∧
        (constraints.allowed_paths ≠ [] →
          matchesAny (normalizeSlashes f) constraints.allowed_paths = true) := by
  induction files with
  | nil => simp [enforceFiles]
  | cons f rest ih =>
    unfold enforceFiles
    by_cases hforb : constraints.forbidden_paths ≠ [] ∧
        matchesAny (normalizeSlashes f) constraints.forbidden_paths = true
    · rw [if_pos hforb]
      constructor
      · intro h
        exact absurd h (by simp)
      · intro h
        have := (h f (List.mem_cons_self f rest)).1
        rw [this] at hforb
        exact absurd hforb (by simp)
    · rw [if_neg hforb]
      by_cases hallow : constraints.allowed_paths ≠ [] ∧
          ¬ matchesAny (normalizeSlashes f) constraints.allowed_paths = true
      · rw [if_pos hallow]
        constructor
        · intro h
          exact absurd h (by simp)
        · intro h
          exact absurd ((h f (List.mem_cons_self f rest)).2 hallow.1) hallow.2
      · rw [if_neg hallow]
        rw [ih]
        constructor
        · intro h
          intro g hg
          rcases List.mem_cons.mp hg with hgf | hgr
          · subst hgf
            constructor
            · by_cases hne : constraints.forbidden_paths = []
              · rw [hne]
                exact matchesAny_nil _
              · rcases Bool.eq_false_or_eq_true
                  (matchesAny (normalizeSlashes g)
                    constraints.forbidden_paths) with hm | hm
                · exact absurd ⟨hne, hm⟩ hforb
                · exact hm
            · intro hne
              exact Classical.byContradiction fun hm => hallow ⟨hne, hm⟩
          · exact h g hgr
        · intro h g hg
          exact h g (List.mem_cons_of_mem f hg)

/-- Success characterization of `enforce_file_policy`. -/
theorem enforce_file_policy_ok_iff (files : List String)
    (constraints : PlanConstraints) :
    enforce_file_policy files constraints = .ok () ↔
      ((files.length : Int) ≤ constraints.max_files_changed ∧
       ∀ f ∈ files,
         matchesAny (normalizeSlashes f) constraints.forbidden_paths =
           false ∧
         (constraints.allowed_paths ≠ [] →
           matchesAny (normalizeSlashes f) constraints.allowed_paths =
             true)) := by
  unfold enforce_file_policy
  by_cases hcount : (files.length : Int) > constraints.max_files_changed
  · rw [if_pos hcount]
    constructor
    · intro h
      exact absurd h (by simp)
    · intro h
      omega
  · rw [if_neg hcount]
    rw [enforceFiles_ok_iff]
    constructor
    · intro h
      exact ⟨by omega, h⟩
    · intro h
      exact h.2

/-- C3 counterexample: with an empty allow-list the policy passes a path
that is matched by zero `allowed_paths` globs, so the claimed
"returns normally if and only if … every path is matched by at least one
allowed_paths glob" is false as stated. -/
theorem C3_policy_counterexample :
    enforce_file_policy ["docs/readme.md"]
      { allowed_paths := [], forbidden_paths := [], max_files_changed := 20 }
      = .ok () ∧
    matchesAny (normalizeSlashes "docs/readme.md") [] = false := by
  constructor
  · decide
  · decide

/-- C3 (amended): `enforce_file_policy` returns normally iff the count is
within `max_files_changed`, no normalized path matches a forbidden glob
and — when `allowed_paths` is non-empty — every normalized path matches at
least one allowed glob.  The count rule is checked first, then per path the
forbidden rule before the allowed rule, each failure raising
`PolicyViolation`; a singleton allow-list `src/**` rejects
`docs/readme.md`. -/
theorem C3_enforce_file_policy (files rest : List String) (f : String)
    (constraints : PlanConstraints) :
    (enforce_file_policy files constraints = .ok () ↔
      ((files.length : Int) ≤ constraints.max_files_changed ∧
       ∀ g ∈ files,
         matchesAny (normalizeSlashes g) constraints.forbidden_paths =
           false ∧
         (constraints.allowed_paths ≠ [] →
           matchesAny (normalizeSlashes g) constraints.allowed_paths =
             true))) ∧
    ((files.length : Int) > constraints.max_files_changed →
      enforce_file_policy files constraints =
        .error (.policyViolation
          ("Changed files exceeded max_files_changed: " ++
            toString files.length ++ " > " ++
            toString constraints.max_files_changed))) ∧
    ((((f :: rest).length : Int) ≤ constraints.max_files_changed ∧
      constraints.forbidden_paths ≠ [] ∧
      matchesAny (normalizeSlashes f) constraints.forbidden_paths = true) →
      enforce_file_policy (f :: rest) constraints =
        .error (.policyViolation
          ("File is forbidden by policy: " ++ normalizeSlashes f))) ∧
    ((((f :: rest).length : Int) ≤ constraints.max_files_changed ∧
      matchesAny (normalizeSlashes f) constraints.forbidden_paths = false ∧
      constraints.allowed_paths ≠ [] ∧
      matchesAny (normalizeSlashes f) constraints.allowed_paths = false) →
      enforce_file_policy (f :: rest) constraints =
        .error (.policyViolation
          ("File is outside allowed paths: " ++ normalizeSlashes f))) ∧
    enforce_file_policy ["docs/readme.md"]
      { allowed_paths := ["src/**"], forbidden_paths := [],
        max_files_changed := 20 } =
      .error (.policyViolation
        "File is outside allowed paths: docs/readme.md") := by
  refine ⟨enforce_file_policy_ok_iff files constraints, ?_, ?_, ?_, by decide⟩
  · intro hcount
    unfold enforce_file_policy
    rw [if_pos hcount]
  · rintro ⟨hcount, hne, hm⟩
    unfold enforce_file_policy
    rw [if_neg (by omega)]
    unfold enforceFiles
    rw [if_pos ⟨hne, hm⟩]
  · rintro ⟨hcount, hforb, hne, hm⟩
    unfold enforce_file_policy
    rw [if_neg (by omega)]
    unfold enforceFiles
    rw [if_neg (by simp [hforb])]
    rw [if_pos ⟨hne, by simp [hm]⟩]

/-- C3 witness: a two-file change within the ceiling, inside the allow
list and outside the forbidden list, passes the policy. -/
theorem C3_enforce_file_policy_witness :
    ((([( "src/a.py" : String), "src/b.py"].length : Int) ≤ (20 : Int)) ∧
      ∀ g ∈ [("src/a.py" : String), "src/b.py"],
        matchesAny (normalizeSlashes g) [".git/**"] = false ∧
        ((["src/**"] : List String) ≠ [] →
          matchesAny (normalizeSlashes g) ["src/**"] = true)) ∧
    enforce_file_policy ["src/a.py", "src/b.py"]
      { allowed_paths := ["src/**"], forbidden_paths := [".git/**"],
        max_files_changed := 20 } = .ok () := by
  have h := (C3_enforce_file_policy ["src/a.py", "src/b.py"] [] "x"
    { allowed_paths := ["src/**"], forbidden_paths := [".git/**"],
      max_files_changed := 20 }).1
  exact ⟨⟨by decide, by decide⟩, h.mpr ⟨by decide, by decide⟩⟩

/-- C10: with an empty `allowed_paths` the allow check is skipped
entirely, so the policy degrades to the count ceiling plus the forbidden
globs; an empty `forbidden_paths` likewise forbids nothing, leaving only
the count ceiling. -/
theorem C10_allow_all_fallback (files : List String)
    (constraints : PlanConstraints)
    (hallow : constraints.allowed_paths = []) :
    (enforce_file_policy files constraints = .ok () ↔
      ((files.length : Int) ≤ constraints.max_files_changed ∧
       ∀ f ∈ files,
         matchesAny (normalizeSlashes f) constraints.forbidden_paths =
           false)) ∧
    (constraints.forbidden_paths = [] →
      (enforce_file_policy files constraints = .ok () ↔
        (files.length : Int) ≤ constraints.max_files_changed)) := by
  constructor
  · rw [enforce_file_policy_ok_iff]
    constructor
    · intro h
      exact ⟨h.1, fun f hf => (h.2 f hf).1⟩
    · intro h
      refine ⟨h.1, fun f hf => ⟨h.2 f hf, fun hne => absurd hallow hne⟩⟩
  · intro hforb
    rw [enforce_file_policy_ok_iff]
    constructor
    · intro h
      exact h.1
    · intro h
      refine ⟨h, fun f hf => ⟨?_, fun hne => absurd hallow hne⟩⟩
      rw [hforb]
      exact matchesAny_nil _

/-- C10 witness: a path matching no allow glob (there are none) passes;
with a forbidden glob present only that glob and the ceiling decide. -/
theorem C10_allow_all_fallback_witness :
    (([".git/config"] : List String).length : Int) ≤ (20 : Int) ∧
    enforce_file_policy ["docs/notes.md"]
      { allowed_paths := [], forbidden_paths := [".git/**"],
        max_files_changed := 20 } = .ok () := by
  refine ⟨by decide, ?_⟩
  have h := (C10_allow_all_fallback ["docs/notes.md"]
    { allowed_paths := [], forbidden_paths := [".git/**"],
      max_files_changed := 20 } rfl).1
  exact h.mpr ⟨by decide, by decide⟩

/-- Emptiness of the errors produced by the step loop of `validate_plan`,
for an arbitrary starting `seen` accumulator. -/
theorem validateSteps_errors_iff (steps : List PlanStep) (seen : List String) :
    (validateSteps seen steps).1 = [] ↔
      ((∀ s ∈ steps, s.id ≠ "") ∧
       (steps.map PlanStep.id).Nodup ∧
       (∀ s ∈ steps, s.id ∉ seen) ∧
       (∀ s ∈ steps, s.step_type = .test →
         commandNonBlank s.command = true)) := by
  induction steps generalizing seen with
  | nil => simp [validateSteps]
  | cons step rest ih =>
    have hcons : (validateSteps seen (step :: rest)).1 =
        (if step.id = "" then ["every step must have an id"]
         else if step.id ∈ seen then ["duplicate step id: " ++ step.id]
         else []) ++
        (if step.step_type = .test ∧ ¬ commandNonBlank step.command = true
         then ["test step '" ++ step.id ++ "' requires command"] else []) ++
        (validateSteps (if step.id = "" ∨ step.id ∈ seen then seen
          else seen ++ [step.id]) rest).1 := by
      rfl
    rw [hcons]
    by_cases hid : step.id = ""
    · rw [if_pos hid]
      constructor
      · intro h
        exact absurd h (by simp)
      · intro h
        exact absurd hid (h.1 step (List.mem_cons_self step rest))
    · rw [if_neg hid]
      by_cases hseen : step.id ∈ seen
      · rw [if_pos hseen]
        constructor
        · intro h
          exact absurd h (by simp)
        · intro h
          exact absurd hseen (h.2.2.1 step (List.mem_cons_self step rest))
      · rw [if_neg hseen]
        have hcond : ¬ (step.id = "" ∨ step.id ∈ seen) := by
          intro hc
          rcases hc with hc | hc
          · exact hid hc
          · exact hseen hc
        rw [if_neg hcond]
        by_cases hcmd : step.step_type = .test ∧
            ¬ commandNonBlank step.command = true
        · rw [if_pos hcmd]
          constructor
          · intro h
            exact absurd h (by simp)
          · intro h
            exact absurd (h.2.2.2 step (List.mem_cons_self step rest) hcmd.1)
              hcmd.2
        · rw [if_neg hcmd]
          simp only [List.nil_append]
          rw [ih]
          constructor
          · rintro ⟨hids, hnodup, hsub, hcmds⟩
            refine ⟨?_, ?_, ?_, ?_⟩
            · intro s hs
              rcases List.mem_cons.mp hs with hs | hs
              · rw [hs]; exact hid
              · exact hids s hs
            · simp only [List.map_cons, List.nodup_cons]
              refine ⟨?_, hnodup⟩
              intro hmem
              rcases List.mem_map.mp hmem with ⟨s, hs, hsid⟩
              have := hsub s hs
              simp [List.mem_append] at this
              exact this.2 hsid
            · intro s hs
              rcases List.mem_cons.mp hs with hs | hs
              · rw [hs]; exact hseen
              · intro hmem
                have := hsub s hs
                simp [List.mem_append] at this
                exact this.1 hmem
            · intro s hs
              rcases List.mem_cons.mp hs with hs | hs
              · rw [hs]
                intro ht
                rcases Bool.eq_false_or_eq_true (commandNonBlank step.command)
                  with hb | hb
                · exact hb
                · exact absurd ⟨ht, by simp [hb]⟩ hcmd
              · exact hcmds s hs
          · rintro ⟨hids, hnodup, hsub, hcmds⟩
            simp only [List.map_cons, List.nodup_cons] at hnodup
            refine ⟨?_, hnodup.2, ?_, ?_⟩
            · exact fun s hs => hids s (List.mem_cons_of_mem step hs)
            · intro s hs
              simp [List.mem_append]
              refine ⟨fun hmem =>
                hsub s (List.mem_cons_of_mem step hs) hmem, ?_⟩
              intro hsid
              exact hnodup.1 (List.mem_map.mpr ⟨s, hs, hsid⟩)
            · exact fun s hs => hcmds s (List.mem_cons_of_mem step hs)

/-- The step types the `validate_plan` loop collects are exactly the types
occurring among the steps. -/
theorem validateSteps_types (steps : List PlanStep) (seen : List String)
    (t : StepType) :
    t ∈ (validateSteps seen steps).2 ↔ ∃ s ∈ steps, s.step_type = t := by
  induction steps generalizing seen with
  | nil => simp [validateSteps]
  | cons step rest ih =>
    have heval : (validateSteps seen (step :: rest)).2 =
        step.step_type :: (validateSteps
          (if step.id = "" ∨ step.id ∈ seen then seen
           else seen ++ [step.id]) rest).2 := rfl
    rw [heval]
    simp only [List.mem_cons, ih]
    constructor
    · rintro (h | ⟨s, hs, hst⟩)
      · exact ⟨step, Or.inl rfl, h.symm⟩
      · exact ⟨s, Or.inr hs, hst⟩
    · rintro ⟨s, hs | hs, hst⟩
      · refine Or.inl ?_
        rw [← hs]
        exact hst.symm
      · exact Or.inr ⟨s, hs, hst⟩

/-- C7 counterexample: a plan whose only flaw is a step with an empty id
satisfies every condition in the claim's iff (ids `["", "s2"]` are unique,
there is a code and a test step, the test step has a command, all header
fields are fine), yet `validate_plan` reports an error — so the claimed
iff is false as stated. -/
theorem C7_validate_plan_counterexample :
    validate_plan
      { plan_id := "p1", task_id := "t1", version := 1, goal := "Do work",
        constraints := { allowed_paths := ["src/**"],
                         max_files_changed := 20 },
        steps := [{ id := "", step_type := .code, title := "code it" },
                  { id := "s2", step_type := .test, title := "test it",
                    command := some "pytest -q" }] } =
      ["every step must have an id"] ∧
    (List.map PlanStep.id
      [({ id := "", step_type := .code, title := "code it" } : PlanStep),
       { id := "s2", step_type := .test, title := "test it",
         command := some "pytest -q" }]).Nodup := by
  constructor
  · decide
  · decide

/-- Emptiness characterization of `validate_plan`. -/
theorem validate_plan_nil_iff (plan : Plan) :
    validate_plan plan = [] ↔
      (plan.plan_id ≠ "" ∧ plan.task_id ≠ "" ∧ pyStrip plan.goal ≠ "" ∧
       plan.constraints.allowed_paths ≠ [] ∧
       plan.constraints.max_files_changed > 0 ∧
       plan.steps ≠ [] ∧
       (∀ s ∈ plan.steps, s.id ≠ "") ∧
       (plan.steps.map PlanStep.id).Nodup ∧
       (∃ s ∈ plan.steps, s.step_type = .code) ∧
       (∃ s ∈ plan.steps, s.step_type = .test) ∧
       (∀ s ∈ plan.steps, s.step_type = .test →
         commandNonBlank s.command = true)) := by
  have hone : ∀ (c : Prop) (inst : Decidable c) (msg : String),
      ((if c then [msg] else ([] : List String)) = [] ↔ ¬ c) := by
    intro c inst msg
    by_cases h : c <;> simp [h]
  simp only [validate_plan]
  by_cases hsteps : plan.steps = []
  · rw [if_pos hsteps]
    refine ⟨fun h => absurd h (by simp), fun h => absurd hsteps ?_⟩
    exact h.2.2.2.2.2.1
  · rw [if_neg hsteps]
    simp only [List.append_eq_nil, hone, validateSteps_errors_iff,
      validateSteps_types, List.not_mem_nil, not_false_iff, not_not,
      not_le]
    constructor
    · intro h
      tauto
    · intro h
      tauto

/-- C7 (amended): `validate_plan` returns no errors iff `plan_id` and
`task_id` are non-empty, the goal is non-blank, `allowed_paths` is
non-empty, `max_files_changed > 0`, there is at least one step, every step
id is non-empty, step ids are unique, there is a code and a test step, and
every test step has a non-blank command; `assert_plan_valid` raises
`PlanValidationError` exactly when the list is non-empty. -/
theorem C7_validate_plan (plan : Plan) :
    (validate_plan plan = [] ↔
      (plan.plan_id ≠ "" ∧ plan.task_id ≠ "" ∧ pyStrip plan.goal ≠ "" ∧
       plan.constraints.allowed_paths ≠ [] ∧
       plan.constraints.max_files_changed > 0 ∧
       plan.steps ≠ [] ∧
       (∀ s ∈ plan.steps, s.id ≠ "") ∧
       (plan.steps.map PlanStep.id).Nodup ∧
       (∃ s ∈ plan.steps, s.step_type = .code) ∧
       (∃ s ∈ plan.steps, s.step_type = .test) ∧
       (∀ s ∈ plan.steps, s.step_type = .test →
         commandNonBlank s.command = true))) ∧
    (assert_plan_valid plan = .ok () ↔ validate_plan plan = []) := by
  refine ⟨validate_plan_nil_iff plan, ?_⟩
  unfold assert_plan_valid
  by_cases h : validate_plan plan = []
  · simp [h]
  · simp [h]

/-- C9 counterexample: the empty text matches no pattern (under any
`search` oracle the classifier never reaches the pattern tests), yet the
result confidence is `0.0`, not the claimed `0.2`. -/
theorem C9_classify_counterexample :
    RuleBasedIntentClassifier.classify (fun _ _ => false) "" =
      { intent := .unknown, confidence := 0, reason := "empty message" } ∧
    (0 : ℚ) ≠ (0.2 : ℚ) := by
  constructor
  · rfl
  · norm_num

/-- C9 (amended): `classify` normalizes (strip, lowercase, collapse
whitespace), returns `unknown` at confidence `0.0` for an empty normalized
text, and otherwise tests reject before approve before clarify, at
confidences `0.95`, `0.95`, `0.6`, falling back to `unknown` at `0.2` when
no pattern matches a non-empty normalized text. -/
theorem C9_classify_ordered (search : String → String → Bool)
    (text : String) :
    (normalizeText text = "" →
      RuleBasedIntentClassifier.classify search text =
        { intent := .unknown, confidence := 0,
          reason := "empty message" }) ∧
    (normalizeText text ≠ "" →
      matchAnyPattern search rejectPatterns (normalizeText text) = true →
      RuleBasedIntentClassifier.classify search text =
        { intent := .reject, confidence := 0.95,
          reason := "matched reject rule" }) ∧
    (normalizeText text ≠ "" →
      matchAnyPattern search rejectPatterns (normalizeText text) = false →
      matchAnyPattern search approvePatterns (normalizeText text) = true →
      RuleBasedIntentClassifier.classify search text =
        { intent := .approve, confidence := 0.95,
          reason := "matched approve rule" }) ∧
    (normalizeText text ≠ "" →
      matchAnyPattern search rejectPatterns (normalizeText text) = false →
      matchAnyPattern search approvePatterns (normalizeText text) = false →
      matchAnyPattern search clarifyPatterns (normalizeText text) = true →
      RuleBasedIntentClassifier.classify search text =
        { intent := .clarify, confidence := 0.6,
          reason := "matched clarify rule" }) ∧
    (normalizeText text ≠ "" →
      matchAnyPattern search rejectPatterns (normalizeText text) = false →
      matchAnyPattern search approvePatterns (normalizeText text) = false →
      matchAnyPattern search clarifyPatterns (normalizeText text) = false →
      RuleBasedIntentClassifier.classify search text =
        { intent := .unknown, confidence := 0.2,
          reason := "no rule matched" }) := by
  unfold RuleBasedIntentClassifier.classify
  refine ⟨fun h0 => by rw [if_pos h0], ?_, ?_, ?_, ?_⟩
  · intro h0 hr
    rw [if_neg h0, if_pos hr]
  · intro h0 hr ha
    rw [if_neg h0, if_neg (by simp [hr]), if_pos ha]
  · intro h0 hr ha hc
    rw [if_neg h0, if_neg (by simp [hr]), if_neg (by simp [ha]),
      if_pos hc]
  · intro h0 hr ha hc
    rw [if_neg h0, if_neg (by simp [hr]), if_neg (by simp [ha]),
      if_neg (by simp [hc])]

/-- C9 witness: under a search oracle that recognizes exactly the pattern
`\bok\b` on the text `ok`, the message `"  OK "` normalizes to `"ok"`, no
reject pattern fires, and `classify` approves at confidence `0.95`. -/
theorem C9_classify_ordered_witness :
    (normalizeText "  OK " ≠ "" ∧
     matchAnyPattern
       (fun p t => p = "\\bok\\b" && t = "ok") rejectPatterns
       (normalizeText "  OK ") = false ∧
     matchAnyPattern
       (fun p t => p = "\\bok\\b" && t = "ok") approvePatterns
       (normalizeText "  OK ") = true) ∧
    RuleBasedIntentClassifier.classify
      (fun p t => p = "\\bok\\b" && t = "ok") "  OK " =
      { intent := .approve, confidence := 0.95,
        reason := "matched approve rule" } := by
  refine ⟨⟨by decide, by decide, by decide⟩, ?_⟩
  exact (C9_classify_ordered (fun p t => p = "\\bok\\b" && t = "ok")
    "  OK ").2.2.1 (by decide) (by decide) (by decide)

/-- C5: `TaskStore.save` truncates the target file in place
(`path.open("w")`) before `json.dump` writes the new record, so a save
interrupted right after the open leaves an empty file — neither the
previous nor the new record — refuting the claimed atomic replace for any
two distinct non-empty records. -/
theorem C5_store_save_torn :
    "" ∈ save_visited_contents "\x7b\"state\": \"NEW\"\x7d"
        "\x7b\"state\": \"CLARIFYING\"\x7d" ∧
    ¬ atomicReplace
      (save_visited_contents "\x7b\"state\": \"NEW\"\x7d"
        "\x7b\"state\": \"CLARIFYING\"\x7d")
      "\x7b\"state\": \"NEW\"\x7d" "\x7b\"state\": \"CLARIFYING\"\x7d" := by
  constructor
  · decide
  · intro h
    have := h "" (by decide)
    rcases this with h1 | h1 <;> exact absurd h1 (by decide)

/-- The first component of a `transition` always carries the execution
info of the input task: neither the state update nor the appended event
touches `execution`. -/
theorem transition_fst_execution (task : Task) (target : TaskState)
    (et m : String) (p : Payload) :
    ((transition task target et m p).1).execution = task.execution := by
  unfold transition
  cases h : assert_transition task target
  · simp
  · simp [Task.record_event]

/-- The first component of a `transition` keeps the task id. -/
theorem transition_fst_task_id (task : Task) (target : TaskState)
    (et m : String) (p : Payload) :
    ((transition task target et m p).1).task_id = task.task_id := by
  unfold transition
  cases h : assert_transition task target
  · simp
  · simp [Task.record_event]

/-- The `try` body of `run_task` never touches `execution.attempt`, on
either the normal or the exceptional exit. -/
theorem runBody_execution_attempt
    {build : Task → Except OrchError BuildResult}
    {run_test : Task → String → Except OrchError TestResult}
    {report_dir : String} {t : Task} {r : Except (Task × OrchError) Task}
    (hr : runBody build run_test report_dir t = r) :
    (∀ t', r = .ok t' → t'.execution.attempt = t.execution.attempt) ∧
    (∀ t' e, r = .error (t', e) →
      t'.execution.attempt = t.execution.attempt) := by
  unfold runBody at hr
  rcases h1 : transition t .RUNNING "state.change" "Entering RUNNING" with
    ⟨t1, r1⟩
  rw [h1] at hr
  have e1 : t1.execution.attempt = t.execution.attempt := by
    have hc := transition_fst_execution t .RUNNING "state.change"
      "Entering RUNNING" []
    rw [h1] at hc
    exact congrArg ExecutionInfo.attempt hc
  cases r1 with
  | some e =>
    simp only [] at hr
    subst hr
    exact ⟨fun t' h => absurd h (by simp),
      fun t' e' h => by cases h; exact e1⟩
  | none =>
  simp only [] at hr
  split at hr
  · subst hr
    exact ⟨fun t' h => absurd h (by simp),
      fun t' e' h => by cases h; exact e1⟩
  rename_i plan hplan
  cases hvalid : assert_plan_valid plan with
  | error e =>
    rw [hvalid] at hr
    simp only [] at hr
    subst hr
    exact ⟨fun t' h => absurd h (by simp),
      fun t' e' h => by cases h; exact e1⟩
  | ok a =>
  rw [hvalid] at hr
  simp only [] at hr
  cases hbuild : build t1 with
  | error e =>
    rw [hbuild] at hr
    simp only [] at hr
    subst hr
    exact ⟨fun t' h => absurd h (by simp),
      fun t' e' h => by cases h; exact e1⟩
  | ok build_result =>
  rw [hbuild] at hr
  simp only [] at hr
  cases hpol : enforce_file_policy build_result.changed_files
      plan.constraints with
  | error e =>
    rw [hpol] at hr
    simp only [] at hr
    subst hr
    exact ⟨fun t' h => absurd h (by simp),
      fun t' e' h => by cases h; exact e1⟩
  | ok a2 =>
  rw [hpol] at hr
  simp only [] at hr
  rcases h2 : transition
      (({ t1 with artifacts := { t1.artifacts with
          diff_path := some build_result.diff_path,
          changed_files := build_result.changed_files } } : Task).record_event
        "build.completed" "Build step completed"
        [("diff_path", build_result.diff_path),
         ("changed_files", toString build_result.changed_files.length)])
      .TESTING "state.change" "Entering TESTING" with ⟨t2, r2⟩
  rw [h2] at hr
  have e2 : t2.execution.attempt = t.execution.attempt := by
    have hc := congrArg (fun p => p.1.execution) h2
    simp only [] at hc
    rw [transition_fst_execution] at hc
    rw [← congrArg ExecutionInfo.attempt hc]
    exact e1
  cases r2 with
  | some e =>
    simp only [] at hr
    subst hr
    exact ⟨fun t' h => absurd h (by simp),
      fun t' e' h => by cases h; exact e2⟩
  | none =>
  simp only [] at hr
  rcases htests : runTestSteps run_test t2
      (plan.steps.filter (fun step => step.step_type == .test)) with
    e | ⟨test_results, all_passed⟩
  · rw [htests] at hr
    simp only [] at hr
    subst hr
    exact ⟨fun t' h => absurd h (by simp),
      fun t' e' h => by cases h; exact e2⟩
  · rw [htests] at hr
    simp only [] at hr
    cases all_passed with
    | true =>
      rw [if_pos rfl] at hr
      rcases h3 : transition
          ({ ({ t2 with artifacts := { t2.artifacts with
              test_results := test_results,
              test_report_path := some (report_dir ++ "/" ++ t2.task_id ++
                "_test_report.json") } } : Task) with
            execution := { (t2.execution) with last_error := none } } : Task)
          .DONE "state.change" "Task completed" with ⟨t3, r3⟩
      rw [h3] at hr
      have e3 : t3.execution.attempt = t.execution.attempt := by
        have hc := congrArg (fun p => p.1.execution) h3
        simp only [] at hc
        rw [transition_fst_execution] at hc
        rw [← congrArg ExecutionInfo.attempt hc]
        exact e2
      cases r3 with
      | some e =>
        simp only [] at hr
        subst hr
        exact ⟨fun t' h => absurd h (by simp),
          fun t' e' h => by cases h; exact e3⟩
      | none =>
        simp only [] at hr
        subst hr
        exact ⟨fun t' h => by cases h; exact e3,
          fun t' e' h => absurd h (by simp)⟩
    | false =>
      rw [if_neg (by simp)] at hr
      rcases h3 : transition
          ({ ({ t2 with artifacts := { t2.artifacts with
              test_results := test_results,
              test_report_path := some (report_dir ++ "/" ++ t2.task_id ++
                "_test_report.json") } } : Task) with
            execution := { (t2.execution) with
              last_error := some "One or more tests failed" } } : Task)
          .FAILED "state.change" "Task failed in tests" with ⟨t3, r3⟩
      rw [h3] at hr
      have e3 : t3.execution.attempt = t.execution.attempt := by
        have hc := congrArg (fun p => p.1.execution) h3
        simp only [] at hc
        rw [transition_fst_execution] at hc
        rw [← congrArg ExecutionInfo.attempt hc]
        exact e2
      cases r3 with
      | some e =>
        simp only [] at hr
        subst hr
        exact ⟨fun t' h => absurd h (by simp),
          fun t' e' h => by cases h; exact e3⟩
      | none =>
        simp only [] at hr
        subst hr
        exact ⟨fun t' h => by cases h; exact e3,
          fun t' e' h => absurd h (by simp)⟩

/-- A successful transition lands in the target state. -/
theorem transition_ok_state {task : Task} {target : TaskState}
    {et m : String} {p : Payload} {t' : Task}
    (h : transition task target et m p = (t', none)) : t'.state = target := by
  unfold transition at h
  cases ha : assert_transition task target <;> rw [ha] at h
  · simp at h
  · have := congrArg Prod.fst h
    simp only [Task.record_event] at this
    rw [← this]

/-- From any non-terminal state the state machine accepts a transition to
`FAILED` (the table always contains it and `FAILED` has no entry
precondition). -/
theorem assert_to_failed_ok (t : Task)
    (h : t.state ∉ [TaskState.FAILED, .DONE, .CANCELLED]) :
    assert_transition t .FAILED = .ok () := by
  rw [assert_transition_ok_iff]
  refine ⟨?_, by simp, by simp, by simp⟩
  cases ht : t.state
  all_goals first
    | decide
    | exact absurd (by rw [ht]; decide) h

/-- C6 counterexample: a `DONE` task already beyond `max_attempts` is not
rejected with `OrchestratorError` — the guard only fires on `FAILED`
tasks — and its attempt counter is still incremented to `6`. -/
theorem C6_attempt_counterexample :
    ∃ t', run_task (fun _ => .error (.adapter "boom"))
        (fun _ _ => .error (.adapter "boom")) ".orchestrator/reports"
        { sampleTask with
          state := .DONE,
          execution := { attempt := 5, max_attempts := 3 } } =
      .raised t' (.invalidTransition "Invalid transition: DONE -> RUNNING") ∧
      t'.execution.attempt = 6 ∧
      (5 : Int) ≥ (3 : Int) := by
  exact ⟨_, rfl, rfl, by decide⟩

/-- C6 (amended): `run_task` raises `OrchestratorError` exactly on the
max-attempts guard — a `FAILED` task with `attempt ≥ max_attempts` — and
leaves the task unpersisted in that case; every call that passes the guard
increments `execution.attempt` by exactly one in the persisted task,
whether the run returns or raises, and is never rejected by the guard. -/
theorem C6_attempt_accounting
    (build : Task → Except OrchError BuildResult)
    (run_test : Task → String → Except OrchError TestResult)
    (report_dir : String) (task : Task) :
    (task.state = .FAILED ∧
        task.execution.attempt ≥ task.execution.max_attempts →
      run_task build run_test report_dir task =
        .rejected (.orchestrator ("Task exceeded max attempts: " ++
          toString task.execution.attempt ++ "/" ++
          toString task.execution.max_attempts))) ∧
    (¬ (task.state = .FAILED ∧
        task.execution.attempt ≥ task.execution.max_attempts) →
      ∀ outcome, run_task build run_test report_dir task = outcome →
        (∀ t', outcome = .returned t' →
          t'.execution.attempt = task.execution.attempt + 1) ∧
        (∀ t' e, outcome = .raised t' e →
          t'.execution.attempt = task.execution.attempt + 1) ∧
        (∀ e, outcome ≠ .rejected e)) := by
  constructor
  · intro hguard
    unfold run_task
    rw [if_pos hguard]
  · intro hguard outcome hout
    unfold run_task at hout
    rw [if_neg hguard] at hout
    simp only [] at hout
    split at hout
    · rename_i t'' heq
      subst hout
      refine ⟨?_, ?_, by simp⟩
      · intro t' h
        cases h
        exact (runBody_execution_attempt heq).1 _ rfl
      · intro t' e h
        exact absurd h (by simp)
    · rename_i t0 exc heq
      subst hout
      refine ⟨?_, ?_, by simp⟩
      · intro t' h
        exact absurd h (by simp)
      · intro t' e h
        cases h
        have hT0 : t0.execution.attempt = task.execution.attempt + 1 :=
          (runBody_execution_attempt heq).2 t0 exc rfl
        simp only [Task.record_event]
        split
        · split
          all_goals rename_i htr
          all_goals
            (have hc2 := congrArg (fun p => p.1.execution) htr
             simp only [] at hc2
             rw [transition_fst_execution] at hc2
             try simp only []
             rw [← congrArg ExecutionInfo.attempt hc2]
             exact hT0)
        · exact hT0

/-- C6 witness: a `FAILED` task at `attempt = 3` of `3` is rejected with
`OrchestratorError`; a fresh `WAIT_APPROVAL` task that fails inside the run
still gets its attempt bumped from `0` to `1`. -/
theorem C6_attempt_accounting_witness :
    (({ sampleTask with
        state := .FAILED,
        execution := { attempt := 3, max_attempts := 3 } } : Task).state =
          .FAILED ∧ (3 : Int) ≥ 3) ∧
    run_task (fun _ => .error (.adapter "boom"))
        (fun _ _ => .error (.adapter "boom")) "reports"
        { sampleTask with
          state := .FAILED,
          execution := { attempt := 3, max_attempts := 3 } } =
      .rejected (.orchestrator "Task exceeded max attempts: 3/3") ∧
    ∀ t', run_task (fun _ => .error (.adapter "boom"))
        (fun _ _ => .error (.adapter "boom")) "reports"
        { sampleTask with state := .NEW } = .raised t' (.invalidTransition
          "Invalid transition: NEW -> RUNNING") →
      t'.execution.attempt = 1 := by
  refine ⟨⟨rfl, by decide⟩, ?_, ?_⟩
  · have h := (C6_attempt_accounting (fun _ => .error (.adapter "boom"))
      (fun _ _ => .error (.adapter "boom")) "reports"
      { sampleTask with
        state := .FAILED,
        execution := { attempt := 3, max_attempts := 3 } }).1
      ⟨rfl, by decide⟩
    simpa using h
  · intro t' h
    have h2 := ((C6_attempt_accounting (fun _ => .error (.adapter "boom"))
      (fun _ _ => .error (.adapter "boom")) "reports"
      { sampleTask with state := .NEW }).2 (by simp) _ h).2.1 t' _ rfl
    simpa using h2

/-- C4 counterexample: `run_task` on a task already in the terminal state
`DONE` raises and persists the task with state `DONE` — not `FAILED` or
`CANCELLED` as the claim demands. -/
theorem C4_run_task_counterexample :
    ∃ t', run_task (fun _ => .error (.adapter "boom"))
        (fun _ _ => .error (.adapter "boom")) ".orchestrator/reports"
        { sampleTask with state := .DONE } =
      .raised t' (.invalidTransition "Invalid transition: DONE -> RUNNING") ∧
      t'.state = .DONE ∧
      t'.state ∉ [TaskState.FAILED, TaskState.CANCELLED] := by
  exact ⟨_, rfl, rfl, by decide⟩

/-- C4 (amended): a `run_task` call rejected by the max-attempts guard
raises `OrchestratorError` without persisting anything; every other call
that ends by raising persists the task with state in
`{FAILED, DONE, CANCELLED}` (`DONE`/`CANCELLED` only when the task was
already terminal), with `execution.last_error` holding the raised error's
message and a final `run.failed` event carrying that message, and re-raises
the error to the caller. -/
theorem C4_run_task_failure
    (build : Task → Except OrchError BuildResult)
    (run_test : Task → String → Except OrchError TestResult)
    (report_dir : String) (task : Task) :
    (task.state = .FAILED ∧
        task.execution.attempt ≥ task.execution.max_attempts →
      run_task build run_test report_dir task =
        .rejected (.orchestrator ("Task exceeded max attempts: " ++
          toString task.execution.attempt ++ "/" ++
          toString task.execution.max_attempts))) ∧
    (∀ t' e, run_task build run_test report_dir task = .raised t' e →
      t'.state ∈ [TaskState.FAILED, .DONE, .CANCELLED] ∧
      t'.execution.last_error = some e.message ∧
      t'.event_log.getLast? =
        some ⟨"run.failed", "Task run failed", [("error", e.message)]⟩) := by
  constructor
  · intro hguard
    unfold run_task
    rw [if_pos hguard]
  · intro t' e h
    unfold run_task at h
    by_cases hguard : task.state = .FAILED ∧
        task.execution.attempt ≥ task.execution.max_attempts
    · rw [if_pos hguard] at h
      exact absurd h (by simp)
    · rw [if_neg hguard] at h
      simp only [] at h
      split at h
      · exact absurd h (by simp)
      · rename_i t0 exc heq
        cases h
        simp only [Task.record_event]
        split
        · split
          · rename_i htr
            refine ⟨?_, ?_, ?_⟩
            · rw [transition_ok_state htr]
              decide
            · have hcE := congrArg (fun p => p.1.execution) htr
              simp only [] at hcE
              rw [transition_fst_execution] at hcE
              rw [← congrArg ExecutionInfo.last_error hcE]
            · simp [List.getLast?_concat]
          · rename_i val htr
            refine ⟨?_, ?_, ?_⟩
            · simp
            · have hcE := congrArg (fun p => p.1.execution) htr
              simp only [] at hcE
              rw [transition_fst_execution] at hcE
              show ExecutionInfo.last_error _ = _
              rw [← congrArg ExecutionInfo.last_error hcE]
            · simp [List.getLast?_concat]
        · rename_i hni
          refine ⟨not_not.mp hni, rfl, ?_⟩
          simp [List.getLast?_concat]

/-- C4 witness: a `NEW` task (guard passes, the `NEW → RUNNING` transition
is rejected) ends `FAILED` with the error message in `last_error` and a
final `run.failed` event. -/
theorem C4_run_task_failure_witness :
    ∃ t' e, run_task (fun _ => .error (.adapter "boom"))
        (fun _ _ => .error (.adapter "boom")) ".orchestrator/reports"
        { sampleTask with state := .NEW } = .raised t' e ∧
      t'.state ∈ [TaskState.FAILED, .DONE, .CANCELLED] ∧
      t'.execution.last_error = some e.message ∧
      t'.event_log.getLast? =
        some ⟨"run.failed", "Task run failed", [("error", e.message)]⟩ := by
  obtain ⟨hstate, hlast, hev⟩ := (C4_run_task_failure
    (fun _ => .error (.adapter "boom")) (fun _ _ => .error (.adapter "boom"))
    ".orchestrator/reports" { sampleTask with state := .NEW }).2 _ _ rfl
  exact ⟨_, _, rfl, hstate, hlast, hev⟩

/-- `pyOrStr` never produces the empty string when its fallback is
non-empty. -/
theorem pyOrStr_ne_empty (v : Option String) (d : String) (h : d ≠ "") :
    pyOrStr v d ≠ "" := by
  cases v with
  | none => exact h
  | some s =>
    show (if s = "" then d else s) ≠ ""
    by_cases hs : s = ""
    · rw [if_pos hs]
      exact h
    · rw [if_neg hs]
      exact hs

/-- `pyOrList` never produces the empty list when its fallback is
non-empty. -/
theorem pyOrList_ne_nil (v : Option (List String)) (d : List String)
    (h : d ≠ []) : pyOrList v d ≠ [] := by
  cases v with
  | none => exact h
  | some l =>
    show (if l = [] then d else l) ≠ []
    by_cases hl : l = []
    · rw [if_pos hl]
      exact h
    · rw [if_neg hl]
      exact hl

/-- Appending to a non-empty string stays non-empty. -/
theorem strAppend_ne_empty (a b : String) (h : a ≠ "") : a ++ b ≠ "" := by
  intro hc
  apply h
  have hd := congrArg String.data hc
  rw [String.data_append] at hd
  have ha : a.data = [] := (List.append_eq_nil.mp hd).1
  cases a with
  | mk da =>
    simp only at ha
    subst ha
    rfl

/-- Appending a non-empty string stays non-empty. -/
theorem strAppend_ne_empty_right (a b : String) (h : b ≠ "") :
    a ++ b ≠ "" := by
  intro hc
  apply h
  have hd := congrArg String.data hc
  rw [String.data_append] at hd
  have hb : b.data = [] := (List.append_eq_nil.mp hd).2
  cases b with
  | mk db =>
    simp only at hb
    subst hb
    rfl

/-- Every step emitted by the `_normalize_steps` loop has a non-empty id
and, when it is a test step, a non-blank command. -/
theorem normalizeStepsAux_ids (items : List (Option StepPayload))
    (idx : Nat) :
    ∀ s ∈ (normalizeStepsAux idx items).1,
      s.id ≠ "" ∧
      (s.step_type = .test → commandNonBlank s.command = true) := by
  induction items generalizing idx with
  | nil => simp [normalizeStepsAux]
  | cons item rest ih =>
    cases item with
    | none =>
      intro s hs
      exact ih (idx + 1) s hs
    | some it =>
      intro s hs
      have hcons : (normalizeStepsAux idx (some it :: rest)).1 =
          ({ id := pyOrStr it.id ("s" ++ toString idx)
             step_type := if strLower (it.type.getD "code") = "test" then
               StepType.test else StepType.code
             title := pyOrStr it.title ("Step " ++ toString idx)
             command :=
               match (if (if strLower (it.type.getD "code") = "test" then
                     StepType.test else StepType.code) = .test ∧
                   ¬ jvalNonBlankStr it.command = true then
                   some (JVal.str "pytest -q") else it.command) with
               | some (.str s) => some s
               | _ => none
             status := parseStatus (strLower (it.status.getD "pending")) }
            : PlanStep) :: (normalizeStepsAux (idx + 1) rest).1 := rfl
      rw [hcons] at hs
      rcases List.mem_cons.mp hs with hs | hs
      · rw [hs]
        refine ⟨pyOrStr_ne_empty _ _ (strAppend_ne_empty _ _ (by decide)),
          ?_⟩
        intro ht
        by_cases hcond : (if strLower (it.type.getD "code") = "test" then
            StepType.test else StepType.code) = .test ∧
            ¬ jvalNonBlankStr it.command = true
        · simp only [if_pos hcond]
          decide
        · simp only [if_neg hcond]
          have hstp : (if strLower (it.type.getD "code") = "test" then
              StepType.test else StepType.code) = .test := by
            simpa using ht
          have hj : jvalNonBlankStr it.command = true := by
            by_contra hj
            exact hcond ⟨hstp, hj⟩
          cases hcmd : it.command with
          | none => rw [hcmd] at hj; simp [jvalNonBlankStr] at hj
          | some jv =>
            cases jv with
            | str sc =>
              rw [hcmd] at hj
              simp only [jvalNonBlankStr] at hj
              simpa [commandNonBlank] using hj
            | other => rw [hcmd] at hj; simp [jvalNonBlankStr] at hj
      · exact ih (idx + 1) s hs

/-- The `has_code` flag of the `_normalize_steps` loop is set exactly when
some emitted step is a code step. -/
theorem normalizeStepsAux_code (items : List (Option StepPayload))
    (idx : Nat) :
    (normalizeStepsAux idx items).2.1 = true ↔
      ∃ s ∈ (normalizeStepsAux idx items).1, s.step_type = .code := by
  induction items generalizing idx with
  | nil => simp [normalizeStepsAux]
  | cons item rest ih =>
    cases item with
    | none => exact ih (idx + 1)
    | some it =>
      have h2 : (normalizeStepsAux idx (some it :: rest)).2.1 =
          (((if strLower (it.type.getD "code") = "test" then StepType.test
            else StepType.code) == .code) ||
           (normalizeStepsAux (idx + 1) rest).2.1) := rfl
      rw [h2]
      simp only [Bool.or_eq_true, beq_iff_eq, ih]
      constructor
      · rintro (h | ⟨s, hs, hst⟩)
        · exact ⟨_, List.mem_cons_self _ _, h⟩
        · exact ⟨s, List.mem_cons_of_mem _ hs, hst⟩
      · rintro ⟨s, hs, hst⟩
        rcases List.mem_cons.mp hs with hs | hs
        · refine Or.inl ?_
          rw [hs] at hst
          exact hst
        · exact Or.inr ⟨s, hs, hst⟩

/-- The `has_test` flag of the `_normalize_steps` loop is set exactly when
some emitted step is a test step. -/
theorem normalizeStepsAux_test (items : List (Option StepPayload))
    (idx : Nat) :
    (normalizeStepsAux idx items).2.2 = true ↔
      ∃ s ∈ (normalizeStepsAux idx items).1, s.step_type = .test := by
  induction items generalizing idx with
  | nil => simp [normalizeStepsAux]
  | cons item rest ih =>
    cases item with
    | none => exact ih (idx + 1)
    | some it =>
      have h2 : (normalizeStepsAux idx (some it :: rest)).2.2 =
          (((if strLower (it.type.getD "code") = "test" then StepType.test
            else StepType.code) == .test) ||
           (normalizeStepsAux (idx + 1) rest).2.2) := rfl
      rw [h2]
      simp only [Bool.or_eq_true, beq_iff_eq, ih]
      constructor
      · rintro (h | ⟨s, hs, hst⟩)
        · exact ⟨_, List.mem_cons_self _ _, h⟩
        · exact ⟨s, List.mem_cons_of_mem _ hs, hst⟩
      · rintro ⟨s, hs, hst⟩
        rcases List.mem_cons.mp hs with hs | hs
        · refine Or.inl ?_
          rw [hs] at hst
          exact hst
        · exact Or.inr ⟨s, hs, hst⟩

/-- `_normalize_steps` output facts: every step has a non-empty id and
test steps carry a non-blank command; a non-empty output has a code step
and a test step. -/
theorem normalize_steps_spec (payload : Option (List (Option StepPayload))) :
    (∀ s ∈ normalize_steps payload,
      s.id ≠ "" ∧
      (s.step_type = .test → commandNonBlank s.command = true)) ∧
    (normalize_steps payload ≠ [] →
      (∃ s ∈ normalize_steps payload, s.step_type = .code) ∧
      (∃ s ∈ normalize_steps payload, s.step_type = .test)) := by
  cases payload with
  | none => simp [normalize_steps]
  | some items =>
    have hids := normalizeStepsAux_ids items 1
    have hcode := normalizeStepsAux_code items 1
    have htest := normalizeStepsAux_test items 1
    simp only [normalize_steps]
    by_cases hout : (normalizeStepsAux 1 items).1 = []
    · rw [hout]
      simp
    · constructor
      · intro s hs
        split at hs
        · split at hs
          · rcases List.mem_cons.mp hs with hs | hs
            · rw [hs]
              exact ⟨by decide, by decide⟩
            · rcases List.mem_append.mp hs with hs | hs
              · exact hids s hs
              · rw [List.mem_singleton.mp hs]
                exact ⟨by decide, by decide⟩
          · rcases List.mem_cons.mp hs with hs | hs
            · rw [hs]
              exact ⟨by decide, by decide⟩
            · exact hids s hs
        · split at hs
          · rcases List.mem_append.mp hs with hs | hs
            · exact hids s hs
            · rw [List.mem_singleton.mp hs]
              exact ⟨by decide, by decide⟩
          · exact hids s hs
      · intro hne
        constructor
        · split
          · split
            · exact ⟨defaultCodeStep,
                List.mem_cons_self _ _, rfl⟩
            · exact ⟨defaultCodeStep, List.mem_cons_self _ _, rfl⟩
          · rename_i hc
            have hcb : (normalizeStepsAux 1 items).2.1 = true := by
              rcases Bool.eq_false_or_eq_true
                ((normalizeStepsAux 1 items).2.1) with hb | hb
              · exact hb
              · exact absurd ⟨hout, by simp [hb]⟩ hc
            obtain ⟨s, hs, hst⟩ := hcode.mp hcb
            split
            · exact ⟨s, List.mem_append_left _ hs, hst⟩
            · exact ⟨s, hs, hst⟩
        · split
          · split
            · refine ⟨defaultTestStep, ?_, rfl⟩
              have : defaultTestStep ∈
                  (normalizeStepsAux 1 items).1 ++ [defaultTestStep] :=
                List.mem_append_right _ (List.mem_singleton_self _)
              exact List.mem_cons_of_mem _ this
            · rename_i h2
              have htb : (normalizeStepsAux 1 items).2.2 = true := by
                rcases Bool.eq_false_or_eq_true
                  ((normalizeStepsAux 1 items).2.2) with hb | hb
                · exact hb
                · exact absurd ⟨by simp, by simp [hb]⟩ h2
              obtain ⟨s, hs, hst⟩ := htest.mp htb
              exact ⟨s, List.mem_cons_of_mem _ hs, hst⟩
          · split
            · exact ⟨defaultTestStep,
                List.mem_append_right _ (List.mem_singleton_self _), rfl⟩
            · rename_i h2
              have htb : (normalizeStepsAux 1 items).2.2 = true := by
                rcases Bool.eq_false_or_eq_true
                  ((normalizeStepsAux 1 items).2.2) with hb | hb
                · exact hb
                · exact absurd ⟨hout, by simp [hb]⟩ h2
              obtain ⟨s, hs, hst⟩ := htest.mp htb
              exact ⟨s, hs, hst⟩
/-- C8 counterexample: a payload whose constraints carry
`max_files_changed = 0` is normalized into a plan that fails validation,
so normalization does not make downstream validation succeed for every
accepted payload. -/
theorem C8_plan_counterexample :
    validate_plan (plan_from_payload
      { constraints := some { max_files_changed := some 0 } } sampleTask) =
      ["constraints.max_files_changed must be > 0"] := by
  decide

/-- C8 (amended): normalization always yields non-empty `allowed_paths`, a
code step and a test step (synthesized when missing) and a non-blank
command on every test step; and `validate_plan` accepts the resulting plan
provided the payload-resolved `max_files_changed` is positive, the
resolved goal is non-blank, the resolved `task_id` is non-empty and the
normalized step ids are distinct. -/
theorem C8_plan_normalization (payload : PlanPayload) (task : Task) :
    ((plan_from_payload payload task).constraints.allowed_paths ≠ [] ∧
     (∃ s ∈ (plan_from_payload payload task).steps,
       s.step_type = .code) ∧
     (∃ s ∈ (plan_from_payload payload task).steps,
       s.step_type = .test) ∧
     ∀ s ∈ (plan_from_payload payload task).steps,
       s.step_type = .test → commandNonBlank s.command = true) ∧
    ((payload.constraints.getD {}).max_files_changed.getD 20 > 0 →
      pyStrip (pyOrStr payload.goal
        (if task.description ≠ "" then task.description
         else task.title)) ≠ "" →
      pyOrStr payload.task_id task.task_id ≠ "" →
      ((plan_from_payload payload task).steps.map PlanStep.id).Nodup →
      validate_plan (plan_from_payload payload task) = []) := by
  have hspec := normalize_steps_spec payload.steps
  have hsteps : (plan_from_payload payload task).steps =
      (if normalize_steps payload.steps = [] then fallbackSteps
       else normalize_steps payload.steps) := rfl
  have hstepfacts :
      ((plan_from_payload payload task).steps ≠ []) ∧
      (∃ s ∈ (plan_from_payload payload task).steps,
        s.step_type = .code) ∧
      (∃ s ∈ (plan_from_payload payload task).steps,
        s.step_type = .test) ∧
      (∀ s ∈ (plan_from_payload payload task).steps, s.id ≠ "" ∧
        (s.step_type = .test → commandNonBlank s.command = true)) := by
    rw [hsteps]
    by_cases hn : normalize_steps payload.steps = []
    · rw [if_pos hn]
      exact ⟨by decide, by decide, by decide, by decide⟩
    · rw [if_neg hn]
      obtain ⟨hcode, htest⟩ := hspec.2 hn
      exact ⟨hn, hcode, htest, hspec.1⟩
  refine ⟨⟨pyOrList_ne_nil _ _ (by decide), hstepfacts.2.1,
    hstepfacts.2.2.1,
    fun s hs ht => (hstepfacts.2.2.2 s hs).2 ht⟩, ?_⟩
  intro hmax hgoal htid hnodup
  rw [validate_plan_nil_iff]
  exact ⟨pyOrStr_ne_empty _ _ (strAppend_ne_empty_right _ _ (by decide)),
    htid,
    hgoal, pyOrList_ne_nil _ _ (by decide), hmax, hstepfacts.1,
    fun s hs => (hstepfacts.2.2.2 s hs).1, hnodup, hstepfacts.2.1,
    hstepfacts.2.2.1, fun s hs ht => (hstepfacts.2.2.2 s hs).2 ht⟩

/-- C8 witness: the empty payload on the sample task normalizes to the
default plan (code step `s1`, test step `s2` running `pytest -q`), which
validates cleanly. -/
theorem C8_plan_normalization_witness :
    ((({} : PlanPayload).constraints.getD {}).max_files_changed.getD 20 >
      0 ∧
     ((plan_from_payload {} sampleTask).steps.map PlanStep.id).Nodup) ∧
    validate_plan (plan_from_payload {} sampleTask) = [] := by
  refine ⟨⟨by decide, by decide⟩, ?_⟩
  exact (C8_plan_normalization {} sampleTask).2 (by decide) (by decide)
    (by decide) (by decide)

end Lucy
